import Mathlib

/-!
# ELife-System attendance core: shallow embedding and verification

This file embeds the attendance-reconciliation core of the ELife kiosk
attendance system in Lean 4 and proves properties of it:

* the timestamp codec (`create24HTimestamp`, `createJSTTimestamp` and their
  fallback branches) which renders clock fields as `YYYY-MM-DD HH:MM:SS`
  strings;
* the attendance ledger model (`AttendanceRecord` lists filtered by day
  and sorted by timestamp string);
* the two variants of the reconciliation decision
  (`needsAutomaticLogout` from `backend/attendanceSystemCheck.js` and
  `studentNeedsAutomaticLogout` from the enhanced backend module);
* the reconciliation job `checkMissingLogouts` with its per-student
  error isolation;
* the record update service `updateAttendanceWithNotification`;
* the kiosk confirmation flow's next-action toggle;
* the history formatter `processAttendanceData`.

JavaScript idioms are translated as follows: a JS string field that may be
falsy is tested against `""`; `Array.prototype.sort` with the
`localeCompare` comparator (a stable sort on ASCII timestamp strings) is
`List.mergeSort` with the `String` order; `Array.prototype.findLastIndex`
returns `-1 : Int` when no element matches; thrown exceptions are
`Except.error`; the Wix data store is a `List Student` and `wixData.update`
replaces the aggregate with the matching `_id`.
-/

namespace ELife

/-- One attendance record as stored in a student's `attendanceHistory`
array.  `date` is the timestamp string, `status` is `"login"` or
`"logout"`, and `rtype` embeds the JS field `type` (`"user-input"` or
`"system-fix"`; a missing field is modelled as `""`). -/
structure AttendanceRecord where
  date : String
  status : String
  rtype : String
deriving DecidableEq, Inhabited

/-- The student aggregate held by the external record store.  `dbId` embeds
the Wix `_id` field; `otherFields` stands for every further sibling field
of the aggregate (the core treats them as opaque pass-through data). -/
structure Student where
  dbId : String
  name : String
  childId : String
  email : String
  otherFields : List (String × String)
  attendanceHistory : List AttendanceRecord
deriving DecidableEq, Inhabited

/-! ## Decimal string rendering (the JS `String(n)` conversion) -/

/-- The ASCII digit character for `n < 10`. -/
def digitChar (n : Nat) : Char := Char.ofNat (48 + n)

/-- Big-endian decimal digits of `n`, computed with enough fuel; mirrors
the decimal conversion performed by the JS `String(n)` template
interpolation.  `decListAux (n+1) n` always has sufficient fuel. -/
def decListAux : Nat → Nat → List Char
  | 0, _ => []
  | fuel + 1, n =>
    if n < 10 then [digitChar n]
    else decListAux fuel (n / 10) ++ [digitChar (n % 10)]

/-- Decimal digit list of `n` (big-endian, no leading zeros). -/
def decList (n : Nat) : List Char := decListAux (n + 1) n

/-- The JS `String(n)` conversion of a natural number. -/
def natToDec (n : Nat) : String := String.mk (decList n)

/-- The JS `String.prototype.padStart(w, c)` method. -/
def padStartStr (s : String) (w : Nat) (c : Char) : String :=
  if s.length < w then String.mk (List.replicate (w - s.length) c) ++ s else s

/-- `String(n).padStart(2, '0')`, the two-digit field rendering used by
every timestamp constructor of the repository. -/
def pad2 (n : Nat) : String := padStartStr (natToDec n) 2 '0'

/-- `String(n).padStart(4, '0')`, the year rendering of
`Date.prototype.toISOString`. -/
def pad4 (n : Nat) : String := padStartStr (natToDec n) 4 '0'

/-- The canonical timestamp template
`` `${year}-${month}-${day} ${hours}:${minutes}:${seconds}` `` shared by
`create24HTimestamp` (ESystem.js) and `createJSTTimestamp`
(attendanceSystemCheck.js and the enhanced backend module), with the
month, day and time fields already two-digit padded. -/
def fmtCanon (y mo d h mi s : Nat) : String :=
  natToDec y ++ "-" ++ pad2 mo ++ "-" ++ pad2 d ++ " " ++
    pad2 h ++ ":" ++ pad2 mi ++ ":" ++ pad2 s

/-- Calendar fields of an instant as read from the JavaScript clock
(`getUTCFullYear` … `getUTCSeconds` of a `Date` already shifted to the
target civil timezone).  `month` and `day` are 1-based, as produced by
`getUTCMonth() + 1` and `getUTCDate()`. -/
structure ClockTime where
  year : Nat
  month : Nat
  day : Nat
  hours : Nat
  minutes : Nat
  seconds : Nat
deriving DecidableEq, Inhabited

/-- `create24HTimestamp` from `pages/ESystem.js` (main branch): formats the
JST-shifted clock fields with the canonical template. -/
def create24HTimestamp (jst : ClockTime) : String :=
  fmtCanon jst.year jst.month jst.day jst.hours jst.minutes jst.seconds

/-- The `catch` fallback of `create24HTimestamp` in `pages/ESystem.js`: a
manual string construction from the same JST-shifted clock fields,
producing the identical template. -/
def create24HTimestampFallback (jst : ClockTime) : String :=
  fmtCanon jst.year jst.month jst.day jst.hours jst.minutes jst.seconds

/-- `createJSTTimestamp(hours, minutes, seconds)` from
`backend/attendanceSystemCheck.js` and the enhanced backend module (main
branch): today's JST date combined with a caller-given time of day
(default `22:00:00`). -/
def createJSTTimestamp (jst : ClockTime) (hours minutes seconds : Nat) : String :=
  fmtCanon jst.year jst.month jst.day hours minutes seconds

/-- The `catch` fallback of the enhanced `createJSTTimestamp`:
`new Date().toISOString().replace('T', ' ').substring(0, 19)`, i.e. the
UTC clock fields in the canonical template with a four-digit-padded
year. -/
def createJSTTimestampFallback (utc : ClockTime) : String :=
  pad4 utc.year ++ "-" ++ pad2 utc.month ++ "-" ++ pad2 utc.day ++ " " ++
    pad2 utc.hours ++ ":" ++ pad2 utc.minutes ++ ":" ++ pad2 utc.seconds

/-- `validateTimestamp` from `pages/ESystem.js`: the regex test
`^\d{4}-\d{2}-\d{2} \d{2}:\d{2}:\d{2}$`. -/
def validateTimestamp (ts : String) : Bool :=
  match ts.data with
  | [y1, y2, y3, y4, h1, a1, a2, h2, b1, b2, sp, c1, c2, k1, d1, d2, k2, e1, e2] =>
    y1.isDigit && y2.isDigit && y3.isDigit && y4.isDigit && h1 == '-' &&
    a1.isDigit && a2.isDigit && h2 == '-' && b1.isDigit && b2.isDigit &&
    sp == ' ' && c1.isDigit && c2.isDigit && k1 == ':' && d1.isDigit &&
    d2.isDigit && k2 == ':' && e1.isDigit && e2.isDigit
  | _ => false

/-- JS `String.prototype.startsWith`. -/
def strStartsWith (s p : String) : Bool := p.data.isPrefixOf s.data

/-- The day portion `` `${year}-${month}-${day}` `` computed by both
`checkMissingLogouts` variants from the JST clock (`todayPrefix` in the
source). -/
def jstDayPfx (today : ClockTime) : String :=
  natToDec today.year ++ "-" ++ pad2 today.month ++ "-" ++ pad2 today.day

/-! ## Ledger model: day filter and chronological sort

JS `Array.prototype.sort` with the comparator
`(a, b) => a.date.localeCompare(b.date)` is a stable sort by ascending
timestamp string; we model it with the stable `List.insertionSort`.
`localeCompare` on ASCII timestamp strings is plain code-point
lexicographic comparison, computed below by a structural function so the
kernel can evaluate it. -/

/-- Code-point lexicographic strict comparison of character lists. -/
def listCharLtB : List Char → List Char → Bool
  | [], [] => false
  | [], _ :: _ => true
  | _ :: _, [] => false
  | a :: as, b :: bs =>
    if a < b then true else if b < a then false else listCharLtB as bs

/-- Lexicographic strict comparison of strings (executable). -/
def strLtB (a b : String) : Bool := listCharLtB a.data b.data

theorem listCharLtB_iff_lt : ∀ as bs : List Char, listCharLtB as bs = true ↔ List.lt as bs
  | [], [] => by
    constructor
    · intro h; exact absurd h (by decide)
    · intro h; cases h
  | [], b :: bs => by
    constructor
    · intro _; exact List.lt.nil b bs
    · intro _; rfl
  | a :: as, [] => by
    constructor
    · intro h; exact absurd h (by simp [listCharLtB])
    · intro h; cases h
  | a :: as, b :: bs => by
    simp only [listCharLtB]
    by_cases hab : a < b
    · simp only [if_pos hab, true_iff]
      exact List.lt.head _ _ hab
    · by_cases hba : b < a
      · simp only [if_neg hab, if_pos hba]
        constructor
        · intro h; exact absurd h (by decide)
        · intro h
          cases h with
          | head _ _ h' => exact absurd h' hab
          | tail h₁ h₂ _ => exact absurd hba h₂
      · simp only [if_neg hab, if_neg hba, listCharLtB_iff_lt as bs]
        constructor
        · exact fun h => List.lt.tail hab hba h
        · intro h
          cases h with
          | head _ _ h' => exact absurd h' hab
          | tail _ _ h' => exact h'

theorem strLtB_iff_lt (a b : String) : strLtB a b = true ↔ a < b := by
  rw [strLtB, listCharLtB_iff_lt, List.lt_iff_lex_lt, String.lt_iff_toList_lt]
  exact Iff.rfl

theorem strLtB_eq_false_iff_le (a b : String) : strLtB b a = false ↔ a ≤ b := by
  rw [← Bool.not_eq_true, not_iff_comm, strLtB_iff_lt, not_le]

/-- Ascending string order (with a kernel-evaluable decision procedure). -/
def strLe (a b : String) : Prop := a ≤ b

instance : DecidableRel strLe := fun a b =>
  decidable_of_iff (strLtB b a = false) (strLtB_eq_false_iff_le a b)

instance : IsTotal String strLe := ⟨fun a b => le_total a b⟩

instance : IsTrans String strLe := ⟨fun _ _ _ h h' => le_trans h h'⟩

/-- Ascending timestamp-string order on records (the `localeCompare`
comparator of both reconciliation decision functions). -/
def byDateLe (a b : AttendanceRecord) : Prop := a.date ≤ b.date

instance : DecidableRel byDateLe := fun a b =>
  decidable_of_iff (strLtB b.date a.date = false)
    (strLtB_eq_false_iff_le a.date b.date)

instance : IsTotal AttendanceRecord byDateLe :=
  ⟨fun a b => le_total a.date b.date⟩

instance : IsTrans AttendanceRecord byDateLe :=
  ⟨fun _ _ _ h h' => le_trans h h'⟩

/-- The day filter of both decision variants: the `date` field is a
non-falsy string starting with the day prefix. -/
def onDay (todayPfx : String) (r : AttendanceRecord) : Bool :=
  r.date != "" && strStartsWith r.date todayPfx

/-- Today's records of a history: filter by day prefix on the `date`
string (a falsy/empty date is skipped) and stable-sort ascending by
timestamp string, exactly as in both `needsAutomaticLogout` variants. -/
def todayRecordsOf (history : List AttendanceRecord) (todayPfx : String) :
    List AttendanceRecord :=
  List.insertionSort byDateLe (history.filter (onDay todayPfx))

/-- JS `Array.prototype.findLastIndex`: the index of the last element
satisfying `p`, or `-1` if none does. -/
def findLastIndex (l : List AttendanceRecord) (p : AttendanceRecord → Bool) : Int :=
  match l.reverse.findIdx? p with
  | some i => (l.length : Int) - 1 - (i : Int)
  | none => -1

/-- JS `Array.prototype.slice(i)` for a nonnegative-or-clamped start. -/
def sliceFrom (l : List AttendanceRecord) (i : Int) : List AttendanceRecord :=
  l.drop i.toNat

/-- Result of `studentNeedsAutomaticLogout` (the fields the callers
consume). -/
structure LogoutAnalysis where
  needsLogout : Bool
  reason : String
deriving DecidableEq, Inhabited

/-- `studentNeedsAutomaticLogout` from the enhanced backend module
(`src/unnamed/part_002`): filter today's records, sort them ascending by
timestamp, and decide
`isLastRecordLogin && !hasSystemLogout && !hasLogoutAfterLastLogin`. -/
def studentNeedsAutomaticLogout (student : Student) (todayPfx : String) :
    LogoutAnalysis :=
  let history := student.attendanceHistory
  if history.length = 0 then
    { needsLogout := false, reason := "no_history" }
  else
    let todayRecords := todayRecordsOf history todayPfx
    if todayRecords.length = 0 then
      { needsLogout := false, reason := "no_records_today" }
    else
      let lastRecord := todayRecords.getLast!
      let isLastRecordLogin := lastRecord.status == "login"
      let hasSystemLogout := todayRecords.any fun r =>
        r.status == "logout" && r.rtype == "system-fix"
      let lastLoginIndex := findLastIndex todayRecords fun r => r.status == "login"
      let hasLogoutAfterLastLogin :=
        (sliceFrom todayRecords (lastLoginIndex + 1)).any fun r => r.status == "logout"
      let needsLogout := isLastRecordLogin && !hasSystemLogout && !hasLogoutAfterLastLogin
      { needsLogout := needsLogout
        reason := if needsLogout then "last_record_is_login"
                  else "already_logged_out_or_has_system_fix" }

/-- `needsAutomaticLogout` from `backend/attendanceSystemCheck.js`: the
two-condition variant (`isLastRecordLogin && !hasSystemLogout`) over the
same filtered and sorted day records. -/
def needsAutomaticLogout (attendanceHistory : List AttendanceRecord)
    (todayPfx : String) : Bool :=
  if attendanceHistory.length = 0 then false
  else
    let todayRecords := todayRecordsOf attendanceHistory todayPfx
    if todayRecords.length = 0 then false
    else
      let lastRecord := todayRecords.getLast!
      let isLastRecordLogin := lastRecord.status == "login"
      let hasSystemLogout := todayRecords.any fun r =>
        r.status == "logout" && r.rtype == "system-fix"
      isLastRecordLogin && !hasSystemLogout

/-! ## Reconciliation job (`checkMissingLogouts`, enhanced backend module) -/

/-- The synthetic logout record the reconciliation job appends:
`{date: createJSTTimestamp(22, 0, 0), status: "logout", type: "system-fix"}`. -/
def systemLogoutRecord (today : ClockTime) : AttendanceRecord :=
  { date := createJSTTimestamp today 22 0 0
    status := "logout"
    rtype := "system-fix" }

/-- Per-student outcome entry pushed onto `studentsAnalyzed`. -/
structure StudentOutcome where
  name : String
  action : String
  reason : String
deriving DecidableEq, Inhabited

/-- Per-student error entry pushed onto `errors` by the catch block. -/
structure JobError where
  student : String
  error : String
deriving DecidableEq, Inhabited

/-- The structured report returned by `checkMissingLogouts`. -/
structure JobReport where
  success : Bool
  processedStudents : Nat
  systemLogoutsAdded : Nat
  checkDate : String
  studentsAnalyzed : List StudentOutcome
  errors : List JobError
deriving DecidableEq, Inhabited

/-- The body of the per-student `try` block of `checkMissingLogouts`
(enhanced backend module): analyze the student; if a logout is needed,
build the updated aggregate with the spread operator (all fields
preserved, one record appended), validate the critical fields, and write
it back.  A thrown error is an `Except.error`; `writeFails` models a
store write conflict for the given `_id` (the model's `date` field is
always a string, so the `lastRecordType` check cannot fire). -/
def processStudentE (today : ClockTime) (writeFails : String → Bool)
    (student : Student) : Except String (Student × StudentOutcome) :=
  let analysis := studentNeedsAutomaticLogout student (jstDayPfx today)
  if analysis.needsLogout then
    let updatedStudent :=
      { student with
        attendanceHistory := student.attendanceHistory ++ [systemLogoutRecord today] }
    if updatedStudent.dbId = "" ∨ updatedStudent.name = "" ∨ updatedStudent.childId = "" then
      .error "Critical student fields missing from update object!"
    else if writeFails student.dbId then
      .error "write conflict"
    else
      .ok (updatedStudent,
        { name := student.name, action := "system_logout_added", reason := "" })
  else
    .ok (student,
      { name := student.name, action := "no_action_needed", reason := analysis.reason })

/-- The store-level effect of one reconciliation step on one student (the
aggregate after the job visits the student; on any caught error the
aggregate is left unchanged). -/
def processStudent (today : ClockTime) (student : Student) : Student :=
  match processStudentE today (fun _ => false) student with
  | .ok (updatedStudent, _) => updatedStudent
  | .error _ => student

/-- One iteration of the `for` loop of `checkMissingLogouts`: the
per-student `try`/`catch`.  A success appends the outcome to
`studentsAnalyzed`; a caught error appends to `errors`; either way the
loop continues with the next student. -/
def jobStep (today : ClockTime) (writeFails : String → Bool)
    (acc : JobReport × List Student) (st : Student) : JobReport × List Student :=
  match processStudentE today writeFails st with
  | .ok (st', outcome) =>
    ({ acc.1 with
        processedStudents := acc.1.processedStudents + 1
        systemLogoutsAdded := acc.1.systemLogoutsAdded +
          (if outcome.action = "system_logout_added" then 1 else 0)
        studentsAnalyzed := acc.1.studentsAnalyzed ++ [outcome] },
      acc.2 ++ [st'])
  | .error e =>
    ({ acc.1 with
        processedStudents := acc.1.processedStudents + 1
        errors := acc.1.errors ++ [{ student := st.name, error := e }] },
      acc.2 ++ [st])

/-- `checkMissingLogouts` (enhanced backend module): enumerate all
students (`query`; an enumeration failure aborts the whole job), then
process each student inside a per-student `try`/`catch` that records
failures in `errors` and continues with the next student.  Returns the
report together with the resulting store contents. -/
def checkMissingLogouts (today : ClockTime)
    (query : Except String (List Student)) (writeFails : String → Bool) :
    Except String (JobReport × List Student) :=
  match query with
  | .error e => .error ("Failed to check missing logouts: " ++ e)
  | .ok students =>
    .ok (students.foldl (jobStep today writeFails)
      ({ success := true, processedStudents := 0, systemLogoutsAdded := 0
         checkDate := jstDayPfx today, studentsAnalyzed := [], errors := [] }, []))

/-- Number of system-fix logout records a history holds for a given day. -/
def systemFixCountToday (history : List AttendanceRecord) (todayPfx : String) : Nat :=
  (history.filter fun r =>
    onDay todayPfx r && r.status == "logout" && r.rtype == "system-fix").length

/-! ## Record update service (`updateAttendanceWithNotification`, ESystem.js) -/

/-- Result object returned by `updateAttendanceWithNotification`. -/
structure UpdateResult where
  success : Bool
  action : String
  timestamp : String
  studentName : String
deriving DecidableEq, Inhabited

/-- `wixData.update("Students", updated)`: replace the aggregate whose
`_id` matches `updated` with the full new aggregate. -/
def storeUpdate (store : List Student) (updated : Student) : List Student :=
  store.map fun s => if s.dbId = updated.dbId then updated else s

/-- The external notification dispatcher (`sendAttendanceNotification`);
`emailFails` models a dispatcher error. -/
def sendNotification (emailFails : Bool) : Except String Unit :=
  if emailFails then .error "Email notification failed" else .ok ()

/-- `updateAttendanceWithNotification(studentId, status)` from
`pages/ESystem.js`: validate the inputs, resolve the student by
`childId`, append one `user-input` record built by
`createAttendanceRecord` (whose timestamp must pass `validateTimestamp`),
write back the full aggregate with only `attendanceHistory` changed, and
finally invoke the notification dispatcher inside a `try`/`catch` whose
failure is logged and swallowed.  `dbFails` models a store write
failure. -/
def updateAttendanceWithNotification (store : List Student)
    (studentId status : String) (jst : ClockTime)
    (dbFails emailFails : Bool) : Except String (List Student × UpdateResult) :=
  if studentId = "" then .error "Invalid student ID provided"
  else if status ≠ "login" ∧ status ≠ "logout" then
    .error "Invalid status provided. Must be login or logout"
  else
    let studentItems := store.filter (fun s => s.childId == studentId)
    if studentItems = [] then .error "Student not found"
    else
      let student := studentItems.headD default
      let ts := create24HTimestamp jst
      if !validateTimestamp ts then .error "Invalid timestamp format"
      else
        let newRecord : AttendanceRecord :=
          { date := ts, status := status, rtype := "user-input" }
        let attendanceHistory := student.attendanceHistory ++ [newRecord]
        let updatedStudent := { student with attendanceHistory := attendanceHistory }
        if updatedStudent.name = "" ∨ updatedStudent.childId = "" then
          .error "Essential student fields missing from update object!"
        else if dbFails then .error "PersistenceFailure"
        else
          match sendNotification emailFails with
          | .ok _ =>
            .ok (storeUpdate store updatedStudent,
              { success := true, action := status
                timestamp := newRecord.date, studentName := student.name })
          | .error _ =>
            -- catch (emailError): logged; execution continues unchanged
            .ok (storeUpdate store updatedStudent,
              { success := true, action := status
                timestamp := newRecord.date, studentName := student.name })

/-! ## Kiosk confirmation flow (`PresenceConfirmLightbox.js`) -/

/-- The next-action determination of the confirmation lightbox:
`history = student.attendanceHistory || []`,
`last = history[history.length - 1]`, next action `"logout"` iff `last`
exists and `last.status === "login"`.  `none` models a missing
`attendanceHistory` field. -/
def nextAction (attendanceHistory : Option (List AttendanceRecord)) : String :=
  let history := attendanceHistory.getD []
  match history.getLast? with
  | some last => if last.status = "login" then "logout" else "login"
  | none => "login"

/-! ## History formatter (`processAttendanceData`, AttendanceHistory.js) -/

/-- Numeric value of a big-endian decimal digit character list. -/
def digitsToNat (cs : List Char) : Nat :=
  cs.foldl (fun acc c => acc * 10 + (c.toNat - 48)) 0

/-- Model of `new Date(s)` for a string in canonical
`YYYY-MM-DD HH:MM:SS` form: JS parses it as civil local time and the
`getFullYear` … `getSeconds` getters return exactly the written fields.
A non-canonical string gives `none` (an invalid `Date`). -/
def parseCanon (s : String) : Option ClockTime :=
  match s.data with
  | [y1, y2, y3, y4, h1, a1, a2, h2, b1, b2, sp, c1, c2, k1, d1, d2, k2, e1, e2] =>
    if y1.isDigit && y2.isDigit && y3.isDigit && y4.isDigit && h1 == '-' &&
       a1.isDigit && a2.isDigit && h2 == '-' && b1.isDigit && b2.isDigit &&
       sp == ' ' && c1.isDigit && c2.isDigit && k1 == ':' && d1.isDigit &&
       d2.isDigit && k2 == ':' && e1.isDigit && e2.isDigit then
      some { year := digitsToNat [y1, y2, y3, y4]
             month := digitsToNat [a1, a2]
             day := digitsToNat [b1, b2]
             hours := digitsToNat [c1, c2]
             minutes := digitsToNat [d1, d2]
             seconds := digitsToNat [e1, e2] }
    else none
  | _ => none

/-- A strictly increasing encoding of the civil instant carried by the
clock fields; sorting by it is sorting by `Date.prototype.getTime()`. -/
def clockKey (t : ClockTime) : Nat :=
  ((((t.year * 100 + t.month) * 100 + t.day) * 100 + t.hours) * 100 +
    t.minutes) * 100 + t.seconds

/-- `new Date(s).getTime()` up to a strictly monotone reparametrization
(equivalent for sorting); an invalid date is sent to `0`. -/
def getTimeModel (s : String) : Nat :=
  match parseCanon s with
  | some t => clockKey t
  | none => 0

/-- Ascending `getTime()` order on records (the numeric comparator
`(a, b) => new Date(a.date).getTime() - new Date(b.date).getTime()`). -/
def byTimeLe (a b : AttendanceRecord) : Prop :=
  getTimeModel a.date ≤ getTimeModel b.date

instance : DecidableRel byTimeLe :=
  fun a b => inferInstanceAs (Decidable (getTimeModel a.date ≤ getTimeModel b.date))

instance : IsTotal AttendanceRecord byTimeLe :=
  ⟨fun a b => Nat.le_total (getTimeModel a.date) (getTimeModel b.date)⟩

instance : IsTrans AttendanceRecord byTimeLe :=
  ⟨fun _ _ _ h h' => Nat.le_trans h h'⟩

/-- The day key `` `${getFullYear()}-${pad2 (getMonth()+1)}-${pad2 (getDate())}` ``
computed from the parsed record date in `processAttendanceData`. -/
def dayKeyOf (t : ClockTime) : String :=
  natToDec t.year ++ "-" ++ pad2 t.month ++ "-" ++ pad2 t.day

/-- `formatDate` from AttendanceHistory.js:
`toLocaleDateString('en-US', {year: 'numeric', month: '2-digit', day: '2-digit'})`,
i.e. `MM/DD/YYYY`. -/
def formatDate (t : ClockTime) : String :=
  pad2 t.month ++ "/" ++ pad2 t.day ++ "/" ++ natToDec t.year

/-- `formatTime` from AttendanceHistory.js:
`toLocaleTimeString('en-US', {hour: '2-digit', minute: '2-digit', hour12: false})`,
i.e. `HH:MM`. -/
def formatTime (t : ClockTime) : String :=
  pad2 t.hours ++ ":" ++ pad2 t.minutes

/-- `formatTime(new Date(r.date))`; an invalid date renders as the JS
`"Invalid Date"` text. -/
def timeStr (r : AttendanceRecord) : String :=
  match parseCanon r.date with
  | some t => formatTime t
  | none => "Invalid Date"

/-- The day key of a record (an invalid date groups under the JS
`NaN`-containing key, modelled by a fixed sentinel). -/
def recDayKey (r : AttendanceRecord) : String :=
  match parseCanon r.date with
  | some t => dayKeyOf t
  | none => "NaN-aN-aN"

/-- Append `r` to the group of key `k`, preserving the first-insertion
order of keys (JS object property order). -/
def insertGroup (groups : List (String × List AttendanceRecord)) (k : String)
    (r : AttendanceRecord) : List (String × List AttendanceRecord) :=
  match groups with
  | [] => [(k, [r])]
  | (k', rs) :: rest =>
    if k' = k then (k', rs ++ [r]) :: rest else (k', rs) :: insertGroup rest k r

/-- The `dayGroups` object: bucket the (already sorted) records by day
key. -/
def buildDayGroups (records : List AttendanceRecord) :
    List (String × List AttendanceRecord) :=
  records.foldl (fun gs r => insertGroup gs (recDayKey r) r) []

/-- One display row of the attendance table. -/
structure HistoryRow where
  date : String
  login : String
  logout : String
  dayKey : String
  originalDate : String
deriving DecidableEq, Inhabited

/-- Find the first `logout` record of the list and return it together
with the records after it (the JS
`dayRecords.find((record, index) => index > i && record.status === 'logout')`
followed by `i = dayRecords.indexOf(logoutRecord) + 1`). -/
def splitFirstLogout : List AttendanceRecord →
    Option (AttendanceRecord × List AttendanceRecord)
  | [] => none
  | r :: rest =>
    if r.status == "logout" then some (r, rest)
    else
      match splitFirstLogout rest with
      | some (lo, rem) => some (lo, rem)
      | none => none

/-- The pairing `while` loop of `processAttendanceData` over one day
bucket: a `login` pairs with the next following `logout` (skipping past
it), a `login` without a following `logout` shows the `—` placeholder,
and a `logout` reached without a pending `login` makes its own row with a
placeholder login.  The `Nat` argument is recursion fuel; the list length
always suffices. -/
def pairDayAux (fd dk : String) : Nat → List AttendanceRecord → List HistoryRow
  | 0, _ => []
  | _ + 1, [] => []
  | fuel + 1, r :: rest =>
    if r.status == "login" then
      match splitFirstLogout rest with
      | some (lo, rem) =>
        { date := fd, login := timeStr r, logout := timeStr lo
          dayKey := dk, originalDate := r.date } :: pairDayAux fd dk fuel rem
      | none =>
        { date := fd, login := timeStr r, logout := "—"
          dayKey := dk, originalDate := r.date } :: pairDayAux fd dk fuel rest
    else
      { date := fd, login := "—", logout := timeStr r
        dayKey := dk, originalDate := r.date } :: pairDayAux fd dk fuel rest

/-- Pairing loop at full fuel. -/
def pairDay (fd dk : String) (l : List AttendanceRecord) : List HistoryRow :=
  pairDayAux fd dk l.length l

/-- `processAttendanceData` from `pages/AttendanceHistory.js`: sort the
raw records chronologically, bucket them by calendar day, and produce the
greedy login/logout pair rows day by day in ascending day-key order. -/
def processAttendanceData (rawData : List AttendanceRecord) : List HistoryRow :=
  if rawData.length = 0 then []
  else
    let sortedData := List.insertionSort byTimeLe rawData
    let dayGroups := buildDayGroups sortedData
    let sortedKeys := List.insertionSort strLe (dayGroups.map Prod.fst)
    sortedKeys.foldl (fun rows k =>
      match dayGroups.find? (fun g => g.fst == k) with
      | some (_, dayRecords) =>
        let fd :=
          match parseCanon (dayRecords.headD default).date with
          | some t => formatDate t
          | none => "Invalid Date"
        rows ++ pairDay fd k dayRecords
      | none => rows) []

/-! ## Helper lemmas: the day filter and the sort -/

theorem todayRecordsOf_perm (history : List AttendanceRecord) (pfx : String) :
    (todayRecordsOf history pfx).Perm (history.filter (onDay pfx)) :=
  List.perm_insertionSort byDateLe (history.filter (onDay pfx))

theorem todayRecordsOf_sorted (history : List AttendanceRecord) (pfx : String) :
    (todayRecordsOf history pfx).Sorted byDateLe :=
  List.sorted_insertionSort byDateLe (history.filter (onDay pfx))

theorem mem_todayRecordsOf {history : List AttendanceRecord} {pfx : String}
    {r : AttendanceRecord} :
    r ∈ todayRecordsOf history pfx ↔ r ∈ history ∧ onDay pfx r = true := by
  rw [(todayRecordsOf_perm history pfx).mem_iff, List.mem_filter]

theorem mem_of_mem_todayRecordsOf {history : List AttendanceRecord} {pfx : String}
    {r : AttendanceRecord} (h : r ∈ history) (hd : onDay pfx r = true) :
    r ∈ todayRecordsOf history pfx :=
  mem_todayRecordsOf.mpr ⟨h, hd⟩

/-- The synthetic logout's timestamp starts with the job's day. -/
theorem systemLogoutRecord_onDay (today : ClockTime) :
    onDay (jstDayPfx today) (systemLogoutRecord today) = true := by
  have hdata : (createJSTTimestamp today 22 0 0).data =
      (jstDayPfx today).data ++ (" " ++ pad2 22 ++ ":" ++ pad2 0 ++ ":" ++ pad2 0).data := by
    simp only [createJSTTimestamp, fmtCanon, jstDayPfx, String.data_append,
      List.append_assoc]
  have hpre : strStartsWith (createJSTTimestamp today 22 0 0) (jstDayPfx today) = true := by
    rw [strStartsWith, hdata]
    exact List.isPrefixOf_iff_prefix.mpr (List.prefix_append _ _)
  have hne : ((systemLogoutRecord today).date != "") = true := by
    rw [bne_iff_ne]
    intro hcontra
    have hnil : (createJSTTimestamp today 22 0 0).data = [] := by
      rw [show (createJSTTimestamp today 22 0 0) = (systemLogoutRecord today).date from rfl,
        hcontra]
    rw [hdata] at hnil
    exact absurd (List.append_eq_nil.mp hnil).2 (by decide)
  simp only [onDay, systemLogoutRecord] at hne ⊢
  rw [hne, hpre]
  rfl

/-! ## Helper lemmas: the reconciliation decision -/

theorem attendanceHistory_ne_nil_of_mem {st : Student} {r : AttendanceRecord}
    (h : r ∈ st.attendanceHistory) : ¬ st.attendanceHistory.length = 0 := by
  intro h0
  rw [List.length_eq_zero] at h0
  rw [h0] at h
  exact absurd h (List.not_mem_nil r)

/-- If some record of the day is a system-fix logout, the enhanced
decision returns `needsLogout = false` (the `hasSystemLogout` guard). -/
theorem needsLogout_false_of_sysfix (st : Student) (pfx : String)
    (r : AttendanceRecord) (hmem : r ∈ st.attendanceHistory)
    (hday : onDay pfx r = true) (hst : r.status = "logout")
    (hty : r.rtype = "system-fix") :
    (studentNeedsAutomaticLogout st pfx).needsLogout = false := by
  have hlen := attendanceHistory_ne_nil_of_mem hmem
  have hmem2 : r ∈ todayRecordsOf st.attendanceHistory pfx :=
    mem_of_mem_todayRecordsOf hmem hday
  have hlen2 : ¬ (todayRecordsOf st.attendanceHistory pfx).length = 0 := by
    intro h0
    rw [List.length_eq_zero] at h0
    rw [h0] at hmem2
    exact absurd hmem2 (List.not_mem_nil r)
  have hany : (todayRecordsOf st.attendanceHistory pfx).any
      (fun x => x.status == "logout" && x.rtype == "system-fix") = true :=
    List.any_eq_true.mpr ⟨r, hmem2, by rw [hst, hty]; rfl⟩
  unfold studentNeedsAutomaticLogout
  simp only [hlen, if_false, hlen2, hany, Bool.not_true, Bool.and_false, Bool.false_and,
    ite_false]

/-- Normal form of the store-level effect of one reconciliation step. -/
theorem processStudent_eq (today : ClockTime) (st : Student) :
    processStudent today st =
      if (studentNeedsAutomaticLogout st (jstDayPfx today)).needsLogout = true ∧
          ¬ (st.dbId = "" ∨ st.name = "" ∨ st.childId = "") then
        { st with attendanceHistory := st.attendanceHistory ++ [systemLogoutRecord today] }
      else st := by
  unfold processStudent processStudentE
  by_cases hneed : (studentNeedsAutomaticLogout st (jstDayPfx today)).needsLogout = true
  · by_cases hbad : st.dbId = "" ∨ st.name = "" ∨ st.childId = ""
    · simp [hneed, hbad]
    · simp [hneed, hbad]
  · simp [hneed]

/-- After the job appends a synthetic logout, the decision on the updated
student is `needsLogout = false`. -/
theorem needsLogout_false_after_append (today : ClockTime) (st : Student) :
    (studentNeedsAutomaticLogout
      { st with attendanceHistory := st.attendanceHistory ++ [systemLogoutRecord today] }
      (jstDayPfx today)).needsLogout = false := by
  apply needsLogout_false_of_sysfix _ _ (systemLogoutRecord today)
  · simp
  · exact systemLogoutRecord_onDay today
  · rfl
  · rfl

/-- One reconciliation step is idempotent on the stored aggregate. -/
theorem processStudent_idem (today : ClockTime) (st : Student) :
    processStudent today (processStudent today st) = processStudent today st := by
  rw [processStudent_eq today st]
  by_cases hcase : (studentNeedsAutomaticLogout st (jstDayPfx today)).needsLogout = true ∧
      ¬ (st.dbId = "" ∨ st.name = "" ∨ st.childId = "")
  · rw [if_pos hcase, processStudent_eq]
    rw [if_neg]
    intro hcontra
    have hfalse := needsLogout_false_after_append today st
    rw [hcontra.1] at hfalse
    exact absurd hfalse (by decide)
  · rw [if_neg hcase, processStudent_eq, if_neg hcase]

/-- Appending the synthetic logout raises the day's system-fix count by
one. -/
theorem systemFixCountToday_append (today : ClockTime) (h : List AttendanceRecord) :
    systemFixCountToday (h ++ [systemLogoutRecord today]) (jstDayPfx today) =
      systemFixCountToday h (jstDayPfx today) + 1 := by
  unfold systemFixCountToday
  rw [List.filter_append, List.length_append]
  have hp : (onDay (jstDayPfx today) (systemLogoutRecord today) &&
      (systemLogoutRecord today).status == "logout" &&
      (systemLogoutRecord today).rtype == "system-fix") = true := by
    rw [systemLogoutRecord_onDay]
    rfl
  have hone : (List.filter (fun r =>
      onDay (jstDayPfx today) r && r.status == "logout" && r.rtype == "system-fix")
      [systemLogoutRecord today]).length = 1 := by
    rw [List.filter_cons, if_pos hp, List.filter_nil, List.length_cons, List.length_nil]
  rw [hone]

/-- A positive decision implies the day currently holds no system-fix
logout. -/
theorem count_zero_of_needsLogout (st : Student) (pfx : String)
    (h : (studentNeedsAutomaticLogout st pfx).needsLogout = true) :
    systemFixCountToday st.attendanceHistory pfx = 0 := by
  by_contra hne
  have hnil : (st.attendanceHistory.filter fun r =>
      onDay pfx r && r.status == "logout" && r.rtype == "system-fix") ≠ [] := by
    intro h0
    exact hne (by unfold systemFixCountToday; rw [h0]; rfl)
  obtain ⟨r, hr⟩ := List.exists_mem_of_ne_nil _ hnil
  have hr2 := List.mem_filter.mp hr
  have hbools := hr2.2
  simp only [Bool.and_eq_true, beq_iff_eq] at hbools
  have hfalse := needsLogout_false_of_sysfix st pfx r hr2.1 hbools.1.1 hbools.1.2 hbools.2
  rw [h] at hfalse
  exact absurd hfalse (by decide)

/-! ## Helper lemmas: the reconciliation job loop -/

theorem jobStep_fields (today : ClockTime) (wf : String → Bool)
    (acc : JobReport × List Student) (st : Student) :
    (jobStep today wf acc st).1.processedStudents = acc.1.processedStudents + 1 ∧
    (jobStep today wf acc st).2.length = acc.2.length + 1 ∧
    (jobStep today wf acc st).1.studentsAnalyzed.length +
      (jobStep today wf acc st).1.errors.length =
      acc.1.studentsAnalyzed.length + acc.1.errors.length + 1 ∧
    (jobStep today wf acc st).1.success = acc.1.success ∧
    (jobStep today wf acc st).1.checkDate = acc.1.checkDate := by
  unfold jobStep
  cases hp : processStudentE today wf st with
  | ok pair => simp +arith
  | error e => simp +arith

theorem foldl_jobStep_counts (today : ClockTime) (wf : String → Bool) :
    ∀ (students : List Student) (acc : JobReport × List Student),
      ((students.foldl (jobStep today wf) acc).1.processedStudents =
        acc.1.processedStudents + students.length) ∧
      ((students.foldl (jobStep today wf) acc).2.length =
        acc.2.length + students.length) ∧
      ((students.foldl (jobStep today wf) acc).1.studentsAnalyzed.length +
        (students.foldl (jobStep today wf) acc).1.errors.length =
        acc.1.studentsAnalyzed.length + acc.1.errors.length + students.length) ∧
      ((students.foldl (jobStep today wf) acc).1.success = acc.1.success) ∧
      ((students.foldl (jobStep today wf) acc).1.checkDate = acc.1.checkDate)
  | [], acc => by simp
  | st :: rest, acc => by
    have ih := foldl_jobStep_counts today wf rest (jobStep today wf acc st)
    have hs := jobStep_fields today wf acc st
    rw [List.foldl_cons]
    refine ⟨?_, ?_, ?_, ?_, ?_⟩
    · rw [ih.1, hs.1, List.length_cons]; omega
    · rw [ih.2.1, hs.2.1, List.length_cons]; omega
    · rw [ih.2.2.1, hs.2.2.1, List.length_cons]; omega
    · rw [ih.2.2.2.1, hs.2.2.2.1]
    · rw [ih.2.2.2.2, hs.2.2.2.2]

/-! ## Helper lemmas: `findLastIndex` and the trailing slice -/

theorem any_drop_iff (l : List AttendanceRecord) (n : Nat) (p : AttendanceRecord → Bool) :
    (l.drop n).any p = true ↔ ∃ j, n ≤ j ∧ ∃ r, l[j]? = some r ∧ p r = true := by
  rw [List.any_eq_true]
  constructor
  · rintro ⟨r, hr, hp⟩
    obtain ⟨m, hm⟩ := List.mem_iff_getElem?.mp hr
    rw [List.getElem?_drop] at hm
    exact ⟨n + m, Nat.le_add_right n m, r, hm, hp⟩
  · rintro ⟨j, hnj, r, hj, hp⟩
    refine ⟨r, ?_, hp⟩
    rw [List.mem_iff_getElem?]
    refine ⟨j - n, ?_⟩
    rw [List.getElem?_drop, show n + (j - n) = j by omega]
    exact hj

/-- If the last element satisfies `p`, `findLastIndex` returns the last
position. -/
theorem findLastIndex_of_getLast (l : List AttendanceRecord) (hne : l ≠ [])
    (p : AttendanceRecord → Bool) (hp : p (l.getLast hne) = true) :
    findLastIndex l p = (l.length : Int) - 1 := by
  unfold findLastIndex
  have hrev : l.reverse = l.getLast hne :: l.dropLast.reverse := by
    conv_lhs => rw [← List.dropLast_append_getLast hne]
    rw [List.reverse_append]
    rfl
  rw [hrev, List.findIdx?_cons, if_pos hp]
  simp

theorem sliceFrom_last_succ (l : List AttendanceRecord) :
    sliceFrom l ((l.length : Int) - 1 + 1) = [] := by
  unfold sliceFrom
  rw [show ((l.length : Int) - 1 + 1).toNat = l.length by omega, List.drop_length]

/-- The computed `hasLogoutAfterLastLogin` boolean agrees with the
positional statement: some `logout` record of the day occurs after every
`login` record of the day. -/
theorem hasLogoutAfter_iff (l : List AttendanceRecord) :
    ((sliceFrom l (findLastIndex l (fun r => r.status == "login") + 1)).any
      (fun r => r.status == "logout") = true) ↔
    (∃ j : Nat, (∃ rj, l[j]? = some rj ∧ rj.status = "logout") ∧
      ∀ i ri, l[i]? = some ri → ri.status = "login" → i < j) := by
  unfold findLastIndex
  cases hfi : l.reverse.findIdx? (fun r => r.status == "login") with
  | none =>
    have hnolog : ∀ x ∈ l, (x.status == "login") = false := by
      intro x hx
      exact List.findIdx?_eq_none_iff.mp hfi x (List.mem_reverse.mpr hx)
    have hslice : sliceFrom l (-1 + 1) = l := by
      unfold sliceFrom
      norm_num
    rw [hslice, List.any_eq_true]
    constructor
    · rintro ⟨r, hr, hp⟩
      obtain ⟨j, hj⟩ := List.mem_iff_getElem?.mp hr
      refine ⟨j, ⟨r, hj, by simpa using hp⟩, ?_⟩
      intro i ri hri hlog
      have := hnolog ri (List.getElem?_mem hri)
      rw [hlog] at this
      exact absurd this (by decide)
    · rintro ⟨j, ⟨rj, hj, hlog⟩, _⟩
      exact ⟨rj, List.getElem?_mem hj, by simp [hlog]⟩
  | some i =>
    obtain ⟨hilen, hpi, hprev⟩ := List.findIdx?_eq_some_iff_getElem.mp hfi
    have hilen2 : i < l.length := by simpa using hilen
    have hrk : l[l.length - 1 - i]? = some (l.reverse.get ⟨i, hilen⟩) := by
      rw [← List.getElem?_reverse hilen2]
      exact List.getElem?_eq_getElem hilen
    have hafter : ∀ m rm, l[m]? = some rm → l.length - 1 - i < m →
        (rm.status == "login") = false := by
      intro m rm hm hkm
      obtain ⟨hmlen, _⟩ := List.getElem?_eq_some_iff.mp hm
      have hj : l.length - 1 - m < i := by omega
      have hjlen : l.length - 1 - m < l.reverse.length := by
        rw [List.length_reverse]; omega
      have hrev2 : l.reverse[l.length - 1 - m]? = l[m]? := by
        rw [List.getElem?_reverse (by omega)]
        congr 1
        omega
      have hsome : l.reverse[l.length - 1 - m]? =
          some (l.reverse.get ⟨l.length - 1 - m, hjlen⟩) :=
        List.getElem?_eq_getElem hjlen
      rw [hrev2, hm] at hsome
      have heq := Option.some.inj hsome
      rw [List.get_eq_getElem] at heq
      have hnp := hprev (l.length - 1 - m) hj
      rw [← heq] at hnp
      exact Bool.eq_false_iff.mpr hnp
    have hslice : sliceFrom l ((l.length : Int) - 1 - (i : Int) + 1) =
        l.drop (l.length - i) := by
      unfold sliceFrom
      congr 1
      omega
    show (sliceFrom l ((l.length : Int) - 1 - (i : Int) + 1)).any
        (fun r => r.status == "logout") = true ↔ _
    rw [hslice, any_drop_iff]
    constructor
    · rintro ⟨j, hkj, r, hj, hlogout⟩
      refine ⟨j, ⟨r, hj, by simpa using hlogout⟩, ?_⟩
      intro i' ri hri hlogin
      have hile : i' ≤ l.length - 1 - i := by
        by_contra hgt
        have := hafter i' ri hri (by omega)
        rw [hlogin] at this
        exact absurd this (by decide)
      omega
    · rintro ⟨j, ⟨rj, hj, hlogout⟩, hall⟩
      have hkj : l.length - 1 - i < j :=
        hall (l.length - 1 - i) (l.reverse.get ⟨i, hilen⟩) hrk (by simpa using hpi)
      exact ⟨j, by omega, rj, hj, by simp [hlogout]⟩

theorem getLast_bang_eq (l : List AttendanceRecord) (hne : l ≠ []) :
    l.getLast! = l.getLast hne := by
  rw [List.getLast!_eq_getElem!, List.getLast_eq_getElem]
  exact getElem!_pos l (l.length - 1)
    (by have := List.length_pos.mpr hne; omega)

/-- Full positional characterization of the enhanced decision on a
non-empty day bucket. -/
theorem needsLogout_iff_spec (st : Student) (pfx : String)
    (hh : ¬ st.attendanceHistory.length = 0)
    (hne : todayRecordsOf st.attendanceHistory pfx ≠ []) :
    ((studentNeedsAutomaticLogout st pfx).needsLogout = true ↔
      ((∃ r, (todayRecordsOf st.attendanceHistory pfx).getLast? = some r ∧
          r.status = "login") ∧
       ¬ (∃ r ∈ todayRecordsOf st.attendanceHistory pfx,
          r.status = "logout" ∧ r.rtype = "system-fix") ∧
       ¬ (∃ j : Nat, (∃ rj, (todayRecordsOf st.attendanceHistory pfx)[j]? = some rj ∧
            rj.status = "logout") ∧
          ∀ i ri, (todayRecordsOf st.attendanceHistory pfx)[i]? = some ri →
            ri.status = "login" → i < j))) := by
  have hlen2 : ¬ (todayRecordsOf st.attendanceHistory pfx).length = 0 := by
    intro h0
    exact hne (List.length_eq_zero.mp h0)
  unfold studentNeedsAutomaticLogout
  rw [if_neg hh, if_neg hlen2]
  show ((todayRecordsOf st.attendanceHistory pfx).getLast!.status == "login" &&
      !((todayRecordsOf st.attendanceHistory pfx).any fun r =>
        r.status == "logout" && r.rtype == "system-fix") &&
      !((sliceFrom (todayRecordsOf st.attendanceHistory pfx)
          (findLastIndex (todayRecordsOf st.attendanceHistory pfx)
            (fun r => r.status == "login") + 1)).any fun r =>
        r.status == "logout")) = true ↔ _
  rw [Bool.and_eq_true, Bool.and_eq_true, Bool.not_eq_true', Bool.not_eq_true']
  constructor
  · rintro ⟨⟨hlast, hsys⟩, hafter⟩
    refine ⟨?_, ?_, ?_⟩
    · refine ⟨(todayRecordsOf st.attendanceHistory pfx).getLast hne, ?_, ?_⟩
      · exact List.getLast?_eq_getLast _ hne
      · rw [← getLast_bang_eq _ hne]
        exact beq_iff_eq.mp hlast
    · intro ⟨r, hmem, hst, hty⟩
      have : (todayRecordsOf st.attendanceHistory pfx).any
          (fun r => r.status == "logout" && r.rtype == "system-fix") = true :=
        List.any_eq_true.mpr ⟨r, hmem, by rw [hst, hty]; rfl⟩
      rw [hsys] at this
      exact absurd this (by decide)
    · intro hspec
      have := (hasLogoutAfter_iff (todayRecordsOf st.attendanceHistory pfx)).mpr hspec
      rw [hafter] at this
      exact absurd this (by decide)
  · rintro ⟨⟨r, hr, hst⟩, hnsys, hnafter⟩
    refine ⟨⟨?_, ?_⟩, ?_⟩
    · rw [getLast_bang_eq _ hne]
      have := List.getLast?_eq_getLast (todayRecordsOf st.attendanceHistory pfx) hne
      rw [this] at hr
      rw [Option.some.inj hr, hst]
      rfl
    · rw [Bool.eq_false_iff]
      intro hany
      obtain ⟨x, hx, hpx⟩ := List.any_eq_true.mp hany
      simp only [Bool.and_eq_true, beq_iff_eq] at hpx
      exact hnsys ⟨x, hx, hpx.1, hpx.2⟩
    · rw [Bool.eq_false_iff]
      intro hany
      exact hnafter ((hasLogoutAfter_iff _).mp hany)

/-! ## Claim theorems -/

/-- A concrete student used to instantiate theorems with hypotheses. -/
def sampleStudent : Student :=
  { dbId := "db-1", name := "Student A", childId := "12345678"
    email := "parent@example.com", otherFields := [("badge", "blue")]
    attendanceHistory :=
      [{ date := "2024-05-01 08:00:00", status := "login", rtype := "user-input" }] }

/-- A concrete JST clock reading used to instantiate theorems. -/
def sampleClock : ClockTime :=
  { year := 2024, month := 5, day := 1, hours := 22, minutes := 30, seconds := 0 }

/-- C3: the kiosk confirmation flow's `nextAction` is `"logout"` exactly
when the insertion-order-last record of the stored `attendanceHistory`
array (not the chronologically latest record) has status `"login"`; for a
missing or empty ledger it is `"login"`. -/
theorem nextAction_toggle (oh : Option (List AttendanceRecord)) :
    (nextAction oh = "logout" ↔
      ∃ last, (oh.getD []).getLast? = some last ∧ last.status = "login") ∧
    nextAction none = "login" ∧ nextAction (some []) = "login" := by
  refine ⟨?_, rfl, rfl⟩
  unfold nextAction
  cases hl : (oh.getD []).getLast? with
  | none => simp [hl]
  | some last =>
    by_cases hs : last.status = "login"
    · simp [hl, hs]
    · simp [hl, hs]

/-- C9: the two-condition decision of `attendanceSystemCheck.js`
(`isLastRecordLogin && !hasSystemLogout`) and the three-condition decision
of the enhanced module (which additionally requires
`!hasLogoutAfterLastLogin`) agree on every input: when the
chronologically last record of the day is a login, no logout can occur
after the day's last login, so the third conjunct is redundant. -/
theorem decision_variants_agree (st : Student) (pfx : String) :
    needsAutomaticLogout st.attendanceHistory pfx =
      (studentNeedsAutomaticLogout st pfx).needsLogout := by
  unfold needsAutomaticLogout studentNeedsAutomaticLogout
  by_cases h0 : st.attendanceHistory.length = 0
  · rw [if_pos h0, if_pos h0]
  · rw [if_neg h0, if_neg h0]
    by_cases h1 : (todayRecordsOf st.attendanceHistory pfx).length = 0
    · rw [if_pos h1, if_pos h1]
    · rw [if_neg h1, if_neg h1]
      show ((todayRecordsOf st.attendanceHistory pfx).getLast!.status == "login" &&
          !((todayRecordsOf st.attendanceHistory pfx).any fun r =>
            r.status == "logout" && r.rtype == "system-fix")) =
        ((todayRecordsOf st.attendanceHistory pfx).getLast!.status == "login" &&
          !((todayRecordsOf st.attendanceHistory pfx).any fun r =>
            r.status == "logout" && r.rtype == "system-fix") &&
          !((sliceFrom (todayRecordsOf st.attendanceHistory pfx)
              (findLastIndex (todayRecordsOf st.attendanceHistory pfx)
                (fun r => r.status == "login") + 1)).any fun r =>
            r.status == "logout"))
      by_cases hlast :
          ((todayRecordsOf st.attendanceHistory pfx).getLast!.status == "login") = true
      · have hne : todayRecordsOf st.attendanceHistory pfx ≠ [] := by
          intro h
          exact h1 (by rw [h]; rfl)
        have hfli := findLastIndex_of_getLast _ hne (fun r => r.status == "login")
          (by rw [← getLast_bang_eq _ hne]; exact hlast)
        rw [hfli, sliceFrom_last_succ]
        simp only [List.any_nil, Bool.not_false, Bool.and_true]
      · rw [Bool.not_eq_true] at hlast
        rw [hlast, Bool.false_and, Bool.false_and]

/-- C1 counterexample: on an empty ledger the set of the day's records is
empty, yet `studentNeedsAutomaticLogout` reports reason `"no_history"`,
not `"no_records_today"` as the claim states. -/
def emptyLedgerStudent : Student :=
  { dbId := "db-0", name := "Student B", childId := "87654321"
    email := "p@example.com", otherFields := [], attendanceHistory := [] }

theorem emptyLedger_reason_counterexample :
    todayRecordsOf emptyLedgerStudent.attendanceHistory "2024-05-01" = [] ∧
    (studentNeedsAutomaticLogout emptyLedgerStudent "2024-05-01").needsLogout = false ∧
    (studentNeedsAutomaticLogout emptyLedgerStudent "2024-05-01").reason = "no_history" ∧
    "no_history" ≠ "no_records_today" := by
  refine ⟨rfl, rfl, rfl, by decide⟩

/-- C1 (amended): the decision first takes the day's records sorted
ascending by timestamp string; on an *empty ledger* the reason is
`"no_history"`; on a non-empty ledger with no record of the day the
result is `needsLogout = false` with reason `"no_records_today"`; and on
a non-empty day bucket `needsLogout = true` exactly when the
chronologically last record of the day is a login, no record of the day
is a system-fix logout, and no logout of the day occurs after the day's
last login record. -/
theorem needsAutomaticLogout_characterization (st : Student) (pfx : String) :
    ((todayRecordsOf st.attendanceHistory pfx).Sorted byDateLe ∧
     (todayRecordsOf st.attendanceHistory pfx).Perm
       (st.attendanceHistory.filter (onDay pfx))) ∧
    (st.attendanceHistory = [] →
      studentNeedsAutomaticLogout st pfx =
        { needsLogout := false, reason := "no_history" }) ∧
    (st.attendanceHistory ≠ [] → todayRecordsOf st.attendanceHistory pfx = [] →
      studentNeedsAutomaticLogout st pfx =
        { needsLogout := false, reason := "no_records_today" }) ∧
    (st.attendanceHistory ≠ [] → todayRecordsOf st.attendanceHistory pfx ≠ [] →
      ((studentNeedsAutomaticLogout st pfx).needsLogout = true ↔
        ((∃ r, (todayRecordsOf st.attendanceHistory pfx).getLast? = some r ∧
            r.status = "login") ∧
         ¬ (∃ r ∈ todayRecordsOf st.attendanceHistory pfx,
            r.status = "logout" ∧ r.rtype = "system-fix") ∧
         ¬ (∃ j : Nat,
            (∃ rj, (todayRecordsOf st.attendanceHistory pfx)[j]? = some rj ∧
              rj.status = "logout") ∧
            ∀ i ri, (todayRecordsOf st.attendanceHistory pfx)[i]? = some ri →
              ri.status = "login" → i < j)))) := by
  refine ⟨⟨todayRecordsOf_sorted _ _, todayRecordsOf_perm _ _⟩, ?_, ?_, ?_⟩
  · intro h
    unfold studentNeedsAutomaticLogout
    rw [if_pos (by rw [h]; rfl)]
  · intro hne h0
    unfold studentNeedsAutomaticLogout
    rw [if_neg (fun hc => hne (List.length_eq_zero.mp hc)), if_pos (by rw [h0]; rfl)]
  · intro hne hne2
    exact needsLogout_iff_spec st pfx (fun hc => hne (List.length_eq_zero.mp hc)) hne2

theorem needsAutomaticLogout_characterization_witness :
    (studentNeedsAutomaticLogout sampleStudent "2024-05-01").needsLogout = true ↔
      ((∃ r, (todayRecordsOf sampleStudent.attendanceHistory "2024-05-01").getLast? =
          some r ∧ r.status = "login") ∧
       ¬ (∃ r ∈ todayRecordsOf sampleStudent.attendanceHistory "2024-05-01",
          r.status = "logout" ∧ r.rtype = "system-fix") ∧
       ¬ (∃ j : Nat,
          (∃ rj, (todayRecordsOf sampleStudent.attendanceHistory "2024-05-01")[j]? =
            some rj ∧ rj.status = "logout") ∧
          ∀ i ri, (todayRecordsOf sampleStudent.attendanceHistory "2024-05-01")[i]? =
            some ri → ri.status = "login" → i < j)) :=
  (needsAutomaticLogout_characterization sampleStudent "2024-05-01").2.2.2
    (by decide) (by decide)

/-- C2: the reconciliation step is idempotent.  A second run over the
ledgers the first run produced appends nothing (per student and for a
whole store), a student whose day already holds a system-fix logout is
left untouched, and a student-day holding no system-fix logout holds at
most one after the job. -/
theorem reconciliation_idempotent (today : ClockTime) (st : Student)
    (students : List Student) :
    processStudent today (processStudent today st) = processStudent today st ∧
    ((students.map (processStudent today)).map (processStudent today) =
      students.map (processStudent today)) ∧
    (systemFixCountToday st.attendanceHistory (jstDayPfx today) = 0 →
      systemFixCountToday (processStudent today st).attendanceHistory
        (jstDayPfx today) ≤ 1) := by
  refine ⟨processStudent_idem today st, ?_, ?_⟩
  · rw [List.map_map]
    apply List.map_congr_left
    intro x _
    exact processStudent_idem today x
  · intro h0
    rw [processStudent_eq]
    by_cases hcase : (studentNeedsAutomaticLogout st (jstDayPfx today)).needsLogout = true ∧
        ¬ (st.dbId = "" ∨ st.name = "" ∨ st.childId = "")
    · rw [if_pos hcase]
      show systemFixCountToday (st.attendanceHistory ++ [systemLogoutRecord today])
          (jstDayPfx today) ≤ 1
      rw [systemFixCountToday_append, h0]
    · rw [if_neg hcase, h0]
      exact Nat.zero_le 1

theorem reconciliation_idempotent_witness :
    systemFixCountToday (processStudent sampleClock sampleStudent).attendanceHistory
      (jstDayPfx sampleClock) ≤ 1 :=
  (reconciliation_idempotent sampleClock sampleStudent []).2.2 (by decide)

/-- C6: during one reconciliation run every student is visited; a
per-student failure is recorded in the `errors` list without aborting the
remaining students (each student contributes exactly one entry, to
`studentsAnalyzed` or to `errors`); the job fails as a whole only when
the student enumeration itself fails. -/
theorem job_error_isolation (today : ClockTime) (students : List Student)
    (writeFails : String → Bool) (e : String) :
    (∃ rep store, checkMissingLogouts today (.ok students) writeFails = .ok (rep, store) ∧
      rep.success = true ∧
      rep.processedStudents = students.length ∧
      store.length = students.length ∧
      rep.studentsAnalyzed.length + rep.errors.length = students.length) ∧
    checkMissingLogouts today (.error e) writeFails =
      .error ("Failed to check missing logouts: " ++ e) := by
  constructor
  · have hc := foldl_jobStep_counts today writeFails students
      ({ success := true, processedStudents := 0, systemLogoutsAdded := 0
         checkDate := jstDayPfx today, studentsAnalyzed := [], errors := [] }, [])
    refine ⟨_, _, rfl, ?_, ?_, ?_, ?_⟩
    · rw [hc.2.2.2.1]
    · rw [hc.1]
      simp
    · rw [hc.2.1]
      simp
    · rw [hc.2.2.1]
      simp
  · rfl

/-- The record update service returns the same result whether or not the
notification dispatch fails: the `catch` around the dispatcher swallows
the error after the attendance write. -/
theorem update_email_independent (store : List Student) (sid status : String)
    (jst : ClockTime) (dbF : Bool) :
    updateAttendanceWithNotification store sid status jst dbF true =
      updateAttendanceWithNotification store sid status jst dbF false := by
  unfold updateAttendanceWithNotification
  by_cases h1 : sid = ""
  · simp only [if_pos h1]
  · simp only [if_neg h1]
    by_cases h2 : status ≠ "login" ∧ status ≠ "logout"
    · simp only [if_pos h2]
    · simp only [if_neg h2]
      by_cases hm : store.filter (fun s => s.childId == sid) = []
      · simp only [if_pos hm]
      · simp only [if_neg hm]
        by_cases h3 : (!validateTimestamp (create24HTimestamp jst)) = true
        · simp only [if_pos h3]
        · simp only [if_neg h3]
          set student := (store.filter (fun s => s.childId == sid)).headD default with hstu
          by_cases h4 : ({ student with attendanceHistory := student.attendanceHistory ++
              [{ date := create24HTimestamp jst, status := status,
                 rtype := "user-input" }] } : Student).name = "" ∨
              ({ student with attendanceHistory := student.attendanceHistory ++
              [{ date := create24HTimestamp jst, status := status,
                 rtype := "user-input" }] } : Student).childId = ""
          · simp only [if_pos h4]
          · simp only [if_neg h4]
            by_cases h5 : dbF = true
            · rw [h5]
              rfl
            · rw [Bool.not_eq_true] at h5
              rw [h5]
              rfl

/-- Shape of a successful record update: the found student's aggregate is
written back with exactly one `user-input` record appended and all other
fields unchanged (the spread operator), and the result reports success
with the new timestamp. -/
theorem update_ok_shape (store : List Student) (sid status : String)
    (jst : ClockTime) (dbF eF : Bool) (store' : List Student) (res : UpdateResult)
    (h : updateAttendanceWithNotification store sid status jst dbF eF =
      .ok (store', res)) :
    store.filter (fun s => s.childId == sid) ≠ [] ∧
    store' = storeUpdate store
      { (store.filter (fun s => s.childId == sid)).headD default with
        attendanceHistory :=
          ((store.filter (fun s => s.childId == sid)).headD default).attendanceHistory ++
          [{ date := create24HTimestamp jst, status := status, rtype := "user-input" }] } ∧
    res = { success := true, action := status,
            timestamp := create24HTimestamp jst,
            studentName := ((store.filter (fun s => s.childId == sid)).headD default).name } := by
  unfold updateAttendanceWithNotification at h
  by_cases h1 : sid = ""
  · rw [if_pos h1] at h
    exact absurd h (by simp)
  · rw [if_neg h1] at h
    by_cases h2 : status ≠ "login" ∧ status ≠ "logout"
    · rw [if_pos h2] at h
      exact absurd h (by simp)
    · rw [if_neg h2] at h
      by_cases hm : store.filter (fun s => s.childId == sid) = []
      · rw [if_pos hm] at h
        exact absurd h (by simp)
      · rw [if_neg hm] at h
        refine ⟨hm, ?_⟩
        by_cases h3 : (!validateTimestamp (create24HTimestamp jst)) = true
        · rw [if_pos h3] at h
          exact absurd h (by simp)
        · rw [if_neg h3] at h
          set student := (store.filter (fun s => s.childId == sid)).headD default with hstu
          by_cases h4 : ({ student with attendanceHistory := student.attendanceHistory ++
              [{ date := create24HTimestamp jst, status := status,
                 rtype := "user-input" }] } : Student).name = "" ∨
              ({ student with attendanceHistory := student.attendanceHistory ++
              [{ date := create24HTimestamp jst, status := status,
                 rtype := "user-input" }] } : Student).childId = ""
          · rw [if_pos h4] at h
            exact absurd h (by simp)
          · rw [if_neg h4] at h
            by_cases h5 : dbF = true
            · rw [h5] at h
              exact absurd h (by simp)
            · rw [Bool.not_eq_true] at h5
              rw [h5] at h
              cases heF : sendNotification eF with
              | ok u =>
                rw [heF] at h
                have hinj := Except.ok.inj h
                rw [Prod.mk.injEq] at hinj
                exact ⟨hinj.1.symm, hinj.2.symm⟩
              | error u =>
                rw [heF] at h
                have hinj := Except.ok.inj h
                rw [Prod.mk.injEq] at hinj
                exact ⟨hinj.1.symm, hinj.2.symm⟩

theorem headD_mem {α : Type} [Inhabited α] {l : List α} (h : l ≠ []) :
    l.headD default ∈ l := by
  cases l with
  | nil => exact absurd rfl h
  | cons a t => simp [List.headD]

/-- C7: a notification-dispatch failure occurring after the attendance
write has succeeded is caught and swallowed: the call returns exactly
what it returns when the dispatch succeeds — success with the new
timestamp — and the appended attendance record stays in the written
store (no rollback). -/
theorem notification_failure_swallowed (store : List Student)
    (sid status : String) (jst : ClockTime)
    (store' : List Student) (res : UpdateResult)
    (h : updateAttendanceWithNotification store sid status jst false true =
      .ok (store', res)) :
    updateAttendanceWithNotification store sid status jst false true =
      updateAttendanceWithNotification store sid status jst false false ∧
    res.success = true ∧
    res.timestamp = create24HTimestamp jst ∧
    ∃ w ∈ store', w.attendanceHistory.getLast? =
      some { date := create24HTimestamp jst, status := status,
             rtype := "user-input" } := by
  obtain ⟨hne, hst', hres⟩ := update_ok_shape store sid status jst false true store' res h
  refine ⟨update_email_independent store sid status jst false,
    by rw [hres], by rw [hres], ?_⟩
  refine ⟨{ (store.filter (fun s => s.childId == sid)).headD default with
      attendanceHistory :=
        ((store.filter (fun s => s.childId == sid)).headD default).attendanceHistory ++
        [{ date := create24HTimestamp jst, status := status,
           rtype := "user-input" }] }, ?_, List.getLast?_concat _⟩
  rw [hst']
  unfold storeUpdate
  exact List.mem_map.mpr ⟨(store.filter (fun s => s.childId == sid)).headD default,
    (List.mem_filter.mp (headD_mem hne)).1, by rw [if_pos rfl]⟩

theorem notification_failure_swallowed_witness :
    updateAttendanceWithNotification [sampleStudent] "12345678" "login" sampleClock
        false true =
      updateAttendanceWithNotification [sampleStudent] "12345678" "login" sampleClock
        false false ∧
    ({ success := true, action := "login", timestamp := "2024-05-01 22:30:00"
       studentName := "Student A" } : UpdateResult).success = true ∧
    ({ success := true, action := "login", timestamp := "2024-05-01 22:30:00"
       studentName := "Student A" } : UpdateResult).timestamp =
      create24HTimestamp sampleClock ∧
    ∃ w ∈ ([{ sampleStudent with attendanceHistory :=
        sampleStudent.attendanceHistory ++
        [{ date := "2024-05-01 22:30:00", status := "login",
           rtype := "user-input" }] }] : List Student),
      w.attendanceHistory.getLast? =
        some { date := create24HTimestamp sampleClock, status := "login",
               rtype := "user-input" } :=
  notification_failure_swallowed [sampleStudent] "12345678" "login" sampleClock _ _ rfl

/-- C4: field preservation.  When the Record Update Service writes, the
written aggregate keeps every non-ledger field of the resolved student
and appends exactly one record to `attendanceHistory`; when the
Reconciliation Job writes a student (`system_logout_added`), the stored
aggregate keeps every non-ledger field and appends exactly one record,
and a student the job does not flag is left untouched. -/
theorem update_frame_preservation
    (store : List Student) (sid status : String) (jst : ClockTime)
    (dbF eF : Bool) (store' : List Student) (res : UpdateResult)
    (today : ClockTime) (wf : String → Bool) (st st' : Student) (o : StudentOutcome)
    (hupd : updateAttendanceWithNotification store sid status jst dbF eF =
      .ok (store', res))
    (hjob : processStudentE today wf st = .ok (st', o)) :
    (∃ st₀ w, st₀ ∈ store ∧ store' = storeUpdate store w ∧
      w.dbId = st₀.dbId ∧ w.name = st₀.name ∧ w.childId = st₀.childId ∧
      w.email = st₀.email ∧ w.otherFields = st₀.otherFields ∧
      ∃ rec, w.attendanceHistory = st₀.attendanceHistory ++ [rec]) ∧
    (o.action = "system_logout_added" →
      st'.dbId = st.dbId ∧ st'.name = st.name ∧ st'.childId = st.childId ∧
      st'.email = st.email ∧ st'.otherFields = st.otherFields ∧
      ∃ rec, st'.attendanceHistory = st.attendanceHistory ++ [rec]) ∧
    (o.action ≠ "system_logout_added" → st' = st) := by
  obtain ⟨hne, hst', hres⟩ := update_ok_shape store sid status jst dbF eF store' res hupd
  refine ⟨?_, ?_⟩
  · refine ⟨(store.filter (fun s => s.childId == sid)).headD default,
      { (store.filter (fun s => s.childId == sid)).headD default with
        attendanceHistory :=
          ((store.filter (fun s => s.childId == sid)).headD default).attendanceHistory ++
          [{ date := create24HTimestamp jst, status := status,
             rtype := "user-input" }] },
      (List.mem_filter.mp (headD_mem hne)).1, hst', rfl, rfl, rfl, rfl, rfl,
      { date := create24HTimestamp jst, status := status, rtype := "user-input" }, rfl⟩
  · unfold processStudentE at hjob
    by_cases hneed : (studentNeedsAutomaticLogout st (jstDayPfx today)).needsLogout = true
    · rw [if_pos hneed] at hjob
      by_cases hbad : ({ st with attendanceHistory := st.attendanceHistory ++
            [systemLogoutRecord today] } : Student).dbId = "" ∨
          ({ st with attendanceHistory := st.attendanceHistory ++
            [systemLogoutRecord today] } : Student).name = "" ∨
          ({ st with attendanceHistory := st.attendanceHistory ++
            [systemLogoutRecord today] } : Student).childId = ""
      · rw [if_pos hbad] at hjob
        exact absurd hjob (by simp)
      · rw [if_neg hbad] at hjob
        by_cases hwf : wf st.dbId = true
        · rw [if_pos hwf] at hjob
          exact absurd hjob (by simp)
        · rw [Bool.not_eq_true] at hwf
          rw [hwf] at hjob
          have hinj := Except.ok.inj hjob
          rw [Prod.mk.injEq] at hinj
          refine ⟨fun _ => ?_, fun hc => ?_⟩
          · rw [← hinj.1]
            exact ⟨rfl, rfl, rfl, rfl, rfl, systemLogoutRecord today, rfl⟩
          · exact absurd (by rw [← hinj.2]) hc
    · rw [if_neg hneed] at hjob
      have hinj := Except.ok.inj hjob
      rw [Prod.mk.injEq] at hinj
      refine ⟨fun hc => ?_, fun _ => hinj.1.symm⟩
      rw [← hinj.2] at hc
      simp at hc

theorem update_frame_preservation_witness :
    ∃ st₀ w, st₀ ∈ [sampleStudent] ∧
      [{ sampleStudent with attendanceHistory :=
          sampleStudent.attendanceHistory ++
          [{ date := "2024-05-01 22:30:00", status := "login",
             rtype := "user-input" }] }] = storeUpdate [sampleStudent] w ∧
      w.dbId = st₀.dbId ∧ w.name = st₀.name ∧ w.childId = st₀.childId ∧
      w.email = st₀.email ∧ w.otherFields = st₀.otherFields ∧
      ∃ rec, w.attendanceHistory = st₀.attendanceHistory ++ [rec] :=
  (update_frame_preservation [sampleStudent] "12345678" "login" sampleClock
    false false _ _ sampleClock (fun _ => false) sampleStudent _ _ rfl rfl).1

/-- C8: the History Formatter is deterministic (a pure function of the
ledger in this embedding, stated as the last conjunct) and pairs records
greedily within each day: a login at 09:00 followed same-day by a logout
at 17:00 yields one row pairing them; a lone login yields a row with the
`—` placeholder for logout; a logout with no preceding unpaired login
yields its own row with a placeholder login. -/
theorem history_formatter_pairing :
    processAttendanceData
      [{ date := "2024-05-01 09:00:00", status := "login", rtype := "user-input" },
       { date := "2024-05-01 17:00:00", status := "logout", rtype := "user-input" }] =
      [{ date := "05/01/2024", login := "09:00", logout := "17:00"
         dayKey := "2024-05-01", originalDate := "2024-05-01 09:00:00" }] ∧
    processAttendanceData
      [{ date := "2024-05-01 09:00:00", status := "login", rtype := "user-input" }] =
      [{ date := "05/01/2024", login := "09:00", logout := "—"
         dayKey := "2024-05-01", originalDate := "2024-05-01 09:00:00" }] ∧
    processAttendanceData
      [{ date := "2024-05-01 17:00:00", status := "logout", rtype := "user-input" }] =
      [{ date := "05/01/2024", login := "—", logout := "17:00"
         dayKey := "2024-05-01", originalDate := "2024-05-01 17:00:00" }] ∧
    (∀ rawData : List AttendanceRecord,
      processAttendanceData rawData = processAttendanceData rawData) :=
  ⟨by decide, by decide, by decide, fun _ => rfl⟩

/-- Two permuted lists that are both sorted by timestamp string and whose
timestamps are pairwise distinct are equal. -/
theorem sorted_perm_nodup_eq :
    ∀ (l₁ l₂ : List AttendanceRecord), l₁.Perm l₂ →
      l₁.Sorted byDateLe → l₂.Sorted byDateLe →
      (l₁.map (fun r => r.date)).Nodup → l₁ = l₂
  | [], l₂, hp, _, _, _ => (hp.symm.eq_nil).symm
  | a :: t₁, l₂, hp, hs₁, hs₂, hnd => by
    cases l₂ with
    | nil =>
      have := hp.length_eq
      simp at this
    | cons b t₂ =>
      rw [List.map_cons] at hnd
      have hnd' := List.nodup_cons.mp hnd
      have hab : a = b := by
        have hamem : a ∈ b :: t₂ := hp.mem_iff.mp (List.mem_cons_self a t₁)
        have hbmem : b ∈ a :: t₁ := hp.symm.mem_iff.mp (List.mem_cons_self b t₂)
        rcases List.mem_cons.mp hamem with h | hat2
        · exact h
        rcases List.mem_cons.mp hbmem with h | hbt1
        · exact h.symm
        exfalso
        have h1 : byDateLe a b := (List.sorted_cons.mp hs₁).1 b hbt1
        have h2 : byDateLe b a := (List.sorted_cons.mp hs₂).1 a hat2
        have hdate : a.date = b.date := le_antisymm h1 h2
        exact hnd'.1 (by rw [hdate]; exact List.mem_map_of_mem _ hbt1)
      subst hab
      have hp' : t₁.Perm t₂ := hp.cons_inv
      have hrec := sorted_perm_nodup_eq t₁ t₂ hp'
        (List.sorted_cons.mp hs₁).2 (List.sorted_cons.mp hs₂).2 hnd'.2
      rw [hrec]

/-- C10: on a history whose day records carry pairwise distinct
timestamps, the enhanced decision (`needsLogout` and `reason` together)
is invariant under any permutation of the stored history array: the
records are re-sorted by timestamp before analysis, so only the set of
the day's records matters. -/
theorem decision_permutation_invariant (st : Student)
    (h₂ : List AttendanceRecord) (pfx : String)
    (hperm : st.attendanceHistory.Perm h₂)
    (hnd : ((st.attendanceHistory.filter (onDay pfx)).map (fun r => r.date)).Nodup) :
    studentNeedsAutomaticLogout st pfx =
      studentNeedsAutomaticLogout { st with attendanceHistory := h₂ } pfx := by
  have hfperm : (st.attendanceHistory.filter (onDay pfx)).Perm
      (h₂.filter (onDay pfx)) := hperm.filter _
  have hteq : todayRecordsOf st.attendanceHistory pfx = todayRecordsOf h₂ pfx := by
    apply sorted_perm_nodup_eq
    · exact (todayRecordsOf_perm _ _).trans
        (hfperm.trans (todayRecordsOf_perm h₂ pfx).symm)
    · exact todayRecordsOf_sorted _ _
    · exact todayRecordsOf_sorted _ _
    · have hmp : ((todayRecordsOf st.attendanceHistory pfx).map (fun r => r.date)).Perm
          ((st.attendanceHistory.filter (onDay pfx)).map (fun r => r.date)) :=
        (todayRecordsOf_perm _ _).map _
      exact hmp.nodup_iff.mpr hnd
  unfold studentNeedsAutomaticLogout
  show (if st.attendanceHistory.length = 0 then _ else _) = _
  rw [hperm.length_eq, hteq]

theorem decision_permutation_invariant_witness :
    studentNeedsAutomaticLogout
      { sampleStudent with attendanceHistory :=
        [{ date := "2024-05-01 08:00:00", status := "login", rtype := "user-input" },
         { date := "2024-05-01 17:00:00", status := "logout", rtype := "user-input" }] }
      "2024-05-01" =
    studentNeedsAutomaticLogout
      { sampleStudent with attendanceHistory :=
        [{ date := "2024-05-01 17:00:00", status := "logout", rtype := "user-input" },
         { date := "2024-05-01 08:00:00", status := "login", rtype := "user-input" }] }
      "2024-05-01" :=
  decision_permutation_invariant
    { sampleStudent with attendanceHistory :=
      [{ date := "2024-05-01 08:00:00", status := "login", rtype := "user-input" },
       { date := "2024-05-01 17:00:00", status := "logout", rtype := "user-input" }] }
    [{ date := "2024-05-01 17:00:00", status := "logout", rtype := "user-input" },
     { date := "2024-05-01 08:00:00", status := "login", rtype := "user-input" }]
    "2024-05-01" (by decide) (by decide)

/-! ## Timestamp codec: fixed-width decimal blocks

`padList w n` is the big-endian `w`-digit zero-padded decimal rendering of
`n < 10^w`; the codec's `String(n)` / `padStart` output is characterized
through it. -/

def padList : Nat → Nat → List Char
  | 0, _ => []
  | w + 1, n => padList w (n / 10) ++ [digitChar (n % 10)]

theorem padList_length : ∀ (w n : Nat), (padList w n).length = w
  | 0, _ => rfl
  | w + 1, n => by
    rw [padList, List.length_append, padList_length w (n / 10)]
    rfl

theorem padList_zero : ∀ w : Nat, padList w 0 = List.replicate w '0'
  | 0 => rfl
  | w + 1 => by
    rw [padList, Nat.zero_div, padList_zero w, List.replicate_succ']
    rfl

/-- Leading zeros: a `w`-wide block of a number below `10^k` is the
`k`-wide block preceded by zeros. -/
theorem padList_high_zeros : ∀ (k w n : Nat), k ≤ w → n < 10 ^ k →
    padList w n = List.replicate (w - k) '0' ++ padList k n
  | 0, w, n, _, hn => by
    have hn0 : n = 0 := Nat.lt_one_iff.mp hn
    rw [hn0, padList_zero, padList]
    simp
  | k + 1, w, n, hkw, hn => by
    cases w with
    | zero => omega
    | succ w' =>
      have hdiv : n / 10 < 10 ^ k := by
        rw [Nat.div_lt_iff_lt_mul (by norm_num)]
        rw [← Nat.pow_succ]
        exact hn
      rw [padList, padList,
        padList_high_zeros k w' (n / 10) (by omega) hdiv,
        List.append_assoc, Nat.succ_sub_succ]

theorem decListAux_small (fuel n : Nat) (h : n < 10) :
    decListAux (fuel + 1) n = [digitChar n] := by
  rw [decListAux, if_pos h]

theorem padList_one (n : Nat) (h : n < 10) : padList 1 n = [digitChar n] := by
  rw [padList, padList, Nat.mod_eq_of_lt h]
  rfl

theorem decListAux_eq_padList : ∀ (w fuel n : Nat), 10 ^ w ≤ n → n < 10 ^ (w + 1) →
    w < fuel → decListAux fuel n = padList (w + 1) n
  | 0, fuel, n, h1, h2, hf => by
    cases fuel with
    | zero => omega
    | succ f =>
      have h10 : n < 10 := by simpa using h2
      rw [decListAux_small f n h10, padList_one n h10]
  | w + 1, fuel, n, h1, h2, hf => by
    cases fuel with
    | zero => omega
    | succ f =>
      have hge10 : 10 ≤ n := by
        calc 10 = 10 ^ 1 := by norm_num
        _ ≤ 10 ^ (w + 1) := Nat.pow_le_pow_right (by norm_num) (by omega)
        _ ≤ n := h1
      rw [decListAux, if_neg (by omega)]
      have hdiv1 : 10 ^ w ≤ n / 10 := by
        rw [Nat.le_div_iff_mul_le (by norm_num)]
        rw [Nat.pow_succ] at h1
        omega
      have hdiv2 : n / 10 < 10 ^ (w + 1) := by
        rw [Nat.div_lt_iff_lt_mul (by norm_num), ← Nat.pow_succ]
        exact h2
      rw [decListAux_eq_padList w f (n / 10) hdiv1 hdiv2 (by omega)]
      rfl

theorem decList_eq_padList (w n : Nat) (h1 : 10 ^ w ≤ n) (h2 : n < 10 ^ (w + 1)) :
    decList n = padList (w + 1) n :=
  decListAux_eq_padList w (n + 1) n h1 h2 (by
    have hw : w < 10 ^ w := Nat.lt_pow_self (by norm_num) w
    omega)

theorem decList_eq_padList4 (y : Nat) (h1 : 1000 ≤ y) (h2 : y ≤ 9999) :
    decList y = padList 4 y :=
  decList_eq_padList 3 y (by norm_num; omega) (by norm_num; omega)

theorem decList_length_of_small (n : Nat) (h : n < 10) : (decList n).length = 1 := by
  rw [decList, decListAux_small n n h]
  rfl

theorem decList_of_small (n : Nat) (h : n < 10) : decList n = padList 1 n := by
  rw [decList, decListAux_small n n h, padList_one n h]

/-- `String(n).padStart(w, '0')` is exactly the fixed-width block,
for any `n` with fewer than or exactly `w` digits. -/
theorem padStart_decList (w n k : Nat) (hkw : k ≤ w)
    (hnk : n < 10 ^ k) (hdk : decList n = padList k n) :
    (padStartStr (natToDec n) w '0').data = padList w n := by
  rw [padStartStr]
  have hlen : (natToDec n).length = k := by
    rw [show (natToDec n).length = (decList n).length from rfl, hdk, padList_length]
  by_cases hcase : (natToDec n).length < w
  · rw [if_pos hcase]
    show List.replicate (w - (natToDec n).length) '0' ++ (natToDec n).data = _
    rw [hlen, show (natToDec n).data = decList n from rfl, hdk,
      padList_high_zeros k w n hkw hnk]
  · rw [if_neg hcase]
    have hwk : w = k := by omega
    show (natToDec n).data = _
    rw [show (natToDec n).data = decList n from rfl, hdk, hwk]

theorem pad2_data (n : Nat) (h : n < 100) : (pad2 n).data = padList 2 n := by
  rw [pad2]
  by_cases h10 : n < 10
  · exact padStart_decList 2 n 1 (by omega) (by simpa using h10)
      (decList_of_small n h10)
  · exact padStart_decList 2 n 2 (by omega) (by norm_num; omega)
      (decList_eq_padList 1 n (by omega) (by norm_num; omega))

theorem pad4_data (n : Nat) (h : n ≤ 9999) : (pad4 n).data = padList 4 n := by
  rw [pad4]
  by_cases ha : n < 10
  · exact padStart_decList 4 n 1 (by omega) (by simpa using ha)
      (decList_of_small n ha)
  · by_cases hb : n < 100
    · exact padStart_decList 4 n 2 (by omega) (by norm_num; omega)
        (decList_eq_padList 1 n (by omega) (by norm_num; omega))
    · by_cases hc : n < 1000
      · exact padStart_decList 4 n 3 (by omega) (by norm_num; omega)
          (decList_eq_padList 2 n (by norm_num; omega) (by norm_num; omega))
      · exact padStart_decList 4 n 4 (by omega) (by norm_num; omega)
          (decList_eq_padList 3 n (by norm_num; omega) (by norm_num; omega))

theorem digitChar_isDigit (d : Nat) (h : d < 10) : (digitChar d).isDigit = true := by
  interval_cases d <;> decide

theorem digitChar_mod_isDigit (n : Nat) : (digitChar (n % 10)).isDigit = true :=
  digitChar_isDigit _ (Nat.mod_lt _ (by norm_num))

theorem padList_two (m : Nat) :
    padList 2 m = [digitChar (m / 10 % 10), digitChar (m % 10)] := rfl

theorem padList_four (n : Nat) :
    padList 4 n = [digitChar (n / 10 / 10 / 10 % 10), digitChar (n / 10 / 10 % 10),
      digitChar (n / 10 % 10), digitChar (n % 10)] := rfl

/-- The character data of the canonical template, as fixed-width decimal
blocks with separators. -/
theorem fmtCanon_data (y mo d h mi s : Nat) (hy1 : 1000 ≤ y) (hy2 : y ≤ 9999)
    (hmo : mo < 100) (hd : d < 100) (hh : h < 100) (hmi : mi < 100) (hs : s < 100) :
    (fmtCanon y mo d h mi s).data =
      padList 4 y ++ '-' :: (padList 2 mo ++ '-' :: (padList 2 d ++ ' ' ::
        (padList 2 h ++ ':' :: (padList 2 mi ++ ':' :: padList 2 s)))) := by
  rw [fmtCanon]
  simp only [String.data_append]
  rw [show (natToDec y).data = decList y from rfl, decList_eq_padList4 y hy1 hy2,
    pad2_data mo hmo, pad2_data d hd, pad2_data h hh, pad2_data mi hmi, pad2_data s hs]
  simp [List.append_assoc, List.singleton_append]

theorem validateTimestamp_fmtCanon (y mo d h mi s : Nat) (hy1 : 1000 ≤ y)
    (hy2 : y ≤ 9999) (hmo : mo < 100) (hd : d < 100) (hh : h < 100)
    (hmi : mi < 100) (hs : s < 100) :
    validateTimestamp (fmtCanon y mo d h mi s) = true := by
  unfold validateTimestamp
  rw [fmtCanon_data y mo d h mi s hy1 hy2 hmo hd hh hmi hs, padList_four,
    padList_two mo, padList_two d, padList_two h, padList_two mi, padList_two s]
  simp [digitChar_mod_isDigit]

/-- The character data of the ISO fallback template (four-digit padded
year). -/
theorem fallback_data (t : ClockTime) (hy : t.year ≤ 9999)
    (hmo : t.month < 100) (hd : t.day < 100) (hh : t.hours < 100)
    (hmi : t.minutes < 100) (hs : t.seconds < 100) :
    (createJSTTimestampFallback t).data =
      padList 4 t.year ++ '-' :: (padList 2 t.month ++ '-' :: (padList 2 t.day ++ ' ' ::
        (padList 2 t.hours ++ ':' :: (padList 2 t.minutes ++ ':' ::
          padList 2 t.seconds)))) := by
  rw [createJSTTimestampFallback]
  simp only [String.data_append]
  rw [pad4_data t.year hy, pad2_data t.month hmo, pad2_data t.day hd,
    pad2_data t.hours hh, pad2_data t.minutes hmi, pad2_data t.seconds hs]
  simp [List.append_assoc, List.singleton_append]

theorem validateTimestamp_fallback (t : ClockTime) (hy : t.year ≤ 9999)
    (hmo : t.month < 100) (hd : t.day < 100) (hh : t.hours < 100)
    (hmi : t.minutes < 100) (hs : t.seconds < 100) :
    validateTimestamp (createJSTTimestampFallback t) = true := by
  unfold validateTimestamp
  rw [fallback_data t hy hmo hd hh hmi hs, padList_four,
    padList_two t.month, padList_two t.day, padList_two t.hours,
    padList_two t.minutes, padList_two t.seconds]
  simp [digitChar_mod_isDigit]

/-! ## Timestamp codec: lexicographic order of fixed-width blocks -/

theorem mixedRadix (K a₁ b₁ a₂ b₂ : Nat) (hb₁ : b₁ < K) (hb₂ : b₂ < K) :
    a₁ * K + b₁ < a₂ * K + b₂ ↔ a₁ < a₂ ∨ (a₁ = a₂ ∧ b₁ < b₂) := by
  constructor
  · intro h
    rcases Nat.lt_trichotomy a₁ a₂ with h1 | h1 | h1
    · exact Or.inl h1
    · subst h1
      exact Or.inr ⟨rfl, by omega⟩
    · exfalso
      have hK : a₂ * K + b₂ < a₁ * K + b₁ := by
        calc a₂ * K + b₂ < a₂ * K + K := by omega
        _ = (a₂ + 1) * K := by ring
        _ ≤ a₁ * K := Nat.mul_le_mul_right K (by omega)
        _ ≤ a₁ * K + b₁ := by omega
      omega
  · intro h
    rcases h with h1 | ⟨rfl, hb⟩
    · calc a₁ * K + b₁ < a₁ * K + K := by omega
      _ = (a₁ + 1) * K := by ring
      _ ≤ a₂ * K := Nat.mul_le_mul_right K (by omega)
      _ ≤ a₂ * K + b₂ := by omega
    · omega

theorem nat_lt_iff_div_mod (K n₁ n₂ : Nat) (hK : 0 < K) :
    n₁ < n₂ ↔ n₁ / K < n₂ / K ∨ (n₁ / K = n₂ / K ∧ n₁ % K < n₂ % K) := by
  rw [← mixedRadix K (n₁ / K) (n₁ % K) (n₂ / K) (n₂ % K)
    (Nat.mod_lt _ hK) (Nat.mod_lt _ hK)]
  rw [Nat.mul_comm (n₁ / K) K, Nat.mul_comm (n₂ / K) K,
    Nat.div_add_mod, Nat.div_add_mod]

theorem nat_eq_iff_div_mod (K n₁ n₂ : Nat) :
    n₁ = n₂ ↔ n₁ / K = n₂ / K ∧ n₁ % K = n₂ % K := by
  constructor
  · rintro rfl
    exact ⟨rfl, rfl⟩
  · rintro ⟨h1, h2⟩
    rw [← Nat.div_add_mod n₁ K, ← Nat.div_add_mod n₂ K, h1, h2]

theorem lex_nil_iff {r : Char → Char → Prop} : List.Lex r [] [] ↔ False := by
  constructor
  · intro h
    cases h
  · intro h
    exact absurd h (fun hc => hc)

theorem lex_cons_iff {r : Char → Char → Prop} {a b : Char} {l₁ l₂ : List Char} :
    List.Lex r (a :: l₁) (b :: l₂) ↔ r a b ∨ (a = b ∧ List.Lex r l₁ l₂) := by
  constructor
  · intro h
    cases h with
    | rel h => exact Or.inl h
    | cons h => exact Or.inr ⟨rfl, h⟩
  · intro h
    rcases h with h | ⟨rfl, h⟩
    · exact List.Lex.rel h
    · exact List.Lex.cons h

theorem lex_cons_same {c : Char} {l₁ l₂ : List Char} :
    List.Lex (· < ·) (c :: l₁) (c :: l₂) ↔ List.Lex (· < ·) l₁ l₂ := by
  rw [lex_cons_iff]
  constructor
  · intro h
    rcases h with h | ⟨_, h⟩
    · exact absurd h (lt_irrefl c)
    · exact h
  · intro h
    exact Or.inr ⟨rfl, h⟩

theorem digitChar_lt_iff (a b : Nat) (ha : a < 10) (hb : b < 10) :
    digitChar a < digitChar b ↔ a < b := by
  interval_cases a <;> interval_cases b <;> simp [digitChar]

theorem digitChar_inj (a b : Nat) (ha : a < 10) (hb : b < 10) :
    digitChar a = digitChar b ↔ a = b := by
  interval_cases a <;> interval_cases b <;> simp [digitChar]

/-- Lexicographic comparison of equal-width zero-padded blocks followed by
arbitrary tails is numeric comparison, then the tails. -/
theorem lex_padList : ∀ (w n₁ n₂ : Nat) (t₁ t₂ : List Char), n₁ < 10 ^ w → n₂ < 10 ^ w →
    (List.Lex (· < ·) (padList w n₁ ++ t₁) (padList w n₂ ++ t₂) ↔
      (n₁ < n₂ ∨ (n₁ = n₂ ∧ List.Lex (· < ·) t₁ t₂)))
  | 0, n₁, n₂, t₁, t₂, h₁, h₂ => by
    have e₁ : n₁ = 0 := by simpa using h₁
    have e₂ : n₂ = 0 := by simpa using h₂
    subst e₁
    subst e₂
    simp [padList]
  | w + 1, n₁, n₂, t₁, t₂, h₁, h₂ => by
    have hd₁ : n₁ / 10 < 10 ^ w := by
      rw [Nat.div_lt_iff_lt_mul (by norm_num), ← Nat.pow_succ]
      exact h₁
    have hd₂ : n₂ / 10 < 10 ^ w := by
      rw [Nat.div_lt_iff_lt_mul (by norm_num), ← Nat.pow_succ]
      exact h₂
    rw [padList, padList, List.append_assoc, List.append_assoc,
      lex_padList w (n₁ / 10) (n₂ / 10) _ _ hd₁ hd₂,
      List.singleton_append, List.singleton_append, lex_cons_iff,
      digitChar_lt_iff _ _ (Nat.mod_lt _ (by norm_num)) (Nat.mod_lt _ (by norm_num)),
      digitChar_inj _ _ (Nat.mod_lt _ (by norm_num)) (Nat.mod_lt _ (by norm_num)),
      nat_lt_iff_div_mod 10 n₁ n₂ (by norm_num), nat_eq_iff_div_mod 10 n₁ n₂]
    tauto

theorem str_lt_iff_lex (a b : String) : a < b ↔ List.Lex (· < ·) a.data b.data := by
  rw [String.lt_iff_toList_lt]
  exact Iff.rfl

/-! ## The instants canonical timestamps denote (Gregorian calendar)

A canonical timestamp denotes a JST civil instant; since all timestamps
share the fixed JST offset, comparing the denoted instants is comparing
the Gregorian epoch-second counts of the written calendar fields. -/

/-- Gregorian leap-year rule. -/
def isLeap (y : Nat) : Bool := (y % 4 == 0 && y % 100 != 0) || y % 400 == 0

def daysInMonth (leap : Bool) (mo : Nat) : Nat :=
  if mo = 2 then (if leap then 29 else 28)
  else if mo = 4 ∨ mo = 6 ∨ mo = 9 ∨ mo = 11 then 30
  else 31

def daysBeforeMonth (leap : Bool) : Nat → Nat
  | 0 => 0
  | mo + 1 => if mo = 0 then 0 else daysBeforeMonth leap mo + daysInMonth leap mo

def daysInYear (leap : Bool) : Nat := if leap then 366 else 365

def daysBeforeYear : Nat → Nat
  | 0 => 0
  | y + 1 => daysBeforeYear y + daysInYear (isLeap y)

/-- Day count of the civil date from the calendar's day zero. -/
def daysFromCivil (y mo d : Nat) : Nat :=
  daysBeforeYear y + daysBeforeMonth (isLeap y) mo + (d - 1)

/-- Second count of the civil datetime from the calendar's instant zero:
the instant a canonical timestamp represents (up to the shared JST
offset, which cancels in every comparison). -/
def epochSeconds (t : ClockTime) : Nat :=
  daysFromCivil t.year t.month t.day * 86400 +
    (t.hours * 3600 + t.minutes * 60 + t.seconds)

/-- A calendar-valid clock reading in the supported year window. -/
def validClock (t : ClockTime) : Prop :=
  1000 ≤ t.year ∧ t.year ≤ 9999 ∧ 1 ≤ t.month ∧ t.month ≤ 12 ∧
  1 ≤ t.day ∧ t.day ≤ daysInMonth (isLeap t.year) t.month ∧
  t.hours < 24 ∧ t.minutes < 60 ∧ t.seconds < 60

instance (t : ClockTime) : Decidable (validClock t) := by
  unfold validClock
  infer_instance

/-- Field-lexicographic (chronological) order of two clock readings. -/
def clockLex (a b : ClockTime) : Prop :=
  a.year < b.year ∨ (a.year = b.year ∧ (a.month < b.month ∨ (a.month = b.month ∧
    (a.day < b.day ∨ (a.day = b.day ∧ (a.hours < b.hours ∨ (a.hours = b.hours ∧
      (a.minutes < b.minutes ∨ (a.minutes = b.minutes ∧
        a.seconds < b.seconds)))))))))

theorem daysBeforeMonth_succ (leap : Bool) (mo : Nat) (h : 1 ≤ mo) :
    daysBeforeMonth leap (mo + 1) =
      daysBeforeMonth leap mo + daysInMonth leap mo := by
  rw [daysBeforeMonth, if_neg (by omega)]

theorem daysBeforeMonth_le_succ (leap : Bool) (mo : Nat) :
    daysBeforeMonth leap mo ≤ daysBeforeMonth leap (mo + 1) := by
  by_cases h : mo = 0
  · subst h
    exact Nat.zero_le _
  · rw [daysBeforeMonth, if_neg h]
    omega

theorem daysBeforeMonth_mono (leap : Bool) {mo mo' : Nat} (h : mo ≤ mo') :
    daysBeforeMonth leap mo ≤ daysBeforeMonth leap mo' := by
  induction mo' with
  | zero => rw [Nat.le_zero.mp h]
  | succ m ih =>
    rcases Nat.lt_or_ge mo (m + 1) with h1 | h1
    · exact le_trans (ih (by omega)) (daysBeforeMonth_le_succ leap m)
    · rw [show mo = m + 1 by omega]

theorem daysBeforeMonth_13 (leap : Bool) :
    daysBeforeMonth leap 13 = daysInYear leap := by
  cases leap <;> rfl

theorem doy_lt_daysInYear (leap : Bool) (mo d : Nat) (hmo1 : 1 ≤ mo)
    (hmo2 : mo ≤ 12) (hd1 : 1 ≤ d) (hd2 : d ≤ daysInMonth leap mo) :
    daysBeforeMonth leap mo + (d - 1) < daysInYear leap := by
  have h1 : daysBeforeMonth leap mo + (d - 1) <
      daysBeforeMonth leap mo + daysInMonth leap mo := by omega
  rw [← daysBeforeMonth_succ leap mo hmo1] at h1
  calc daysBeforeMonth leap mo + (d - 1) < daysBeforeMonth leap (mo + 1) := h1
  _ ≤ daysBeforeMonth leap 13 := daysBeforeMonth_mono leap (by omega)
  _ = daysInYear leap := daysBeforeMonth_13 leap

theorem daysBeforeYear_succ (y : Nat) :
    daysBeforeYear (y + 1) = daysBeforeYear y + daysInYear (isLeap y) := rfl

theorem daysBeforeYear_mono {y y' : Nat} (h : y ≤ y') :
    daysBeforeYear y ≤ daysBeforeYear y' := by
  induction y' with
  | zero => rw [Nat.le_zero.mp h]
  | succ m ih =>
    rcases Nat.lt_or_ge y (m + 1) with h1 | h1
    · calc daysBeforeYear y ≤ daysBeforeYear m := ih (by omega)
      _ ≤ daysBeforeYear (m + 1) := by rw [daysBeforeYear_succ]; omega
    · rw [show y = m + 1 by omega]

/-- The day count is strictly monotone in the (year, month, day)
lexicographic order of valid dates. -/
theorem daysFromCivil_lt (a b : ClockTime) (va : validClock a) (vb : validClock b)
    (h : a.year < b.year ∨ (a.year = b.year ∧ (a.month < b.month ∨
      (a.month = b.month ∧ a.day < b.day)))) :
    daysFromCivil a.year a.month a.day < daysFromCivil b.year b.month b.day := by
  obtain ⟨hya1, hya2, hma1, hma2, hda1, hda2, _, _, _⟩ := va
  obtain ⟨hyb1, hyb2, hmb1, hmb2, hdb1, hdb2, _, _, _⟩ := vb
  unfold daysFromCivil
  rcases h with hy | ⟨hyeq, hrest⟩
  · have hdoy : daysBeforeMonth (isLeap a.year) a.month + (a.day - 1) <
        daysInYear (isLeap a.year) :=
      doy_lt_daysInYear _ _ _ hma1 hma2 hda1 hda2
    have hstep : daysBeforeYear a.year + daysInYear (isLeap a.year) =
        daysBeforeYear (a.year + 1) := (daysBeforeYear_succ a.year).symm
    have hmono : daysBeforeYear (a.year + 1) ≤ daysBeforeYear b.year :=
      daysBeforeYear_mono (by omega)
    omega
  · rw [hyeq] at hda2 ⊢
    rcases hrest with hm | ⟨hmeq, hd⟩
    · have h1 : daysBeforeMonth (isLeap b.year) a.month + (a.day - 1) <
          daysBeforeMonth (isLeap b.year) (a.month + 1) := by
        rw [daysBeforeMonth_succ _ _ hma1]
        omega
      have h2 : daysBeforeMonth (isLeap b.year) (a.month + 1) ≤
          daysBeforeMonth (isLeap b.year) b.month :=
        daysBeforeMonth_mono _ (by omega)
      omega
    · rw [hmeq]
      omega

theorem epochSeconds_lt_of_lex (a b : ClockTime) (va : validClock a)
    (vb : validClock b) (h : clockLex a b) :
    epochSeconds a < epochSeconds b := by
  unfold epochSeconds
  have hha := va.2.2.2.2.2.2.1
  have hmia := va.2.2.2.2.2.2.2.1
  have hsa := va.2.2.2.2.2.2.2.2
  have hhb := vb.2.2.2.2.2.2.1
  have hmib := vb.2.2.2.2.2.2.2.1
  have hsb := vb.2.2.2.2.2.2.2.2
  by_cases hdate : a.year = b.year ∧ a.month = b.month ∧ a.day = b.day
  · have hdays : daysFromCivil a.year a.month a.day =
        daysFromCivil b.year b.month b.day := by
      rw [hdate.1, hdate.2.1, hdate.2.2]
    unfold clockLex at h
    rw [hdays]
    omega
  · have hdlex : a.year < b.year ∨ (a.year = b.year ∧ (a.month < b.month ∨
        (a.month = b.month ∧ a.day < b.day))) := by
      unfold clockLex at h
      omega
    have hdays := daysFromCivil_lt a b va vb hdlex
    omega

theorem epochSeconds_lt_iff (a b : ClockTime) (va : validClock a)
    (vb : validClock b) :
    clockLex a b ↔ epochSeconds a < epochSeconds b := by
  constructor
  · exact epochSeconds_lt_of_lex a b va vb
  · intro h
    by_contra hn
    have htri : clockLex b a ∨ (a.year = b.year ∧ a.month = b.month ∧
        a.day = b.day ∧ a.hours = b.hours ∧ a.minutes = b.minutes ∧
        a.seconds = b.seconds) := by
      unfold clockLex at hn ⊢
      omega
    rcases htri with h2 | heq
    · have := epochSeconds_lt_of_lex b a vb va h2
      omega
    · have heps : epochSeconds a = epochSeconds b := by
        unfold epochSeconds daysFromCivil
        rw [heq.1, heq.2.1, heq.2.2.1, heq.2.2.2.1, heq.2.2.2.2.1, heq.2.2.2.2.2]
      omega

theorem lex_padList_final (w n₁ n₂ : Nat) (h₁ : n₁ < 10 ^ w) (h₂ : n₂ < 10 ^ w) :
    List.Lex (· < ·) (padList w n₁) (padList w n₂) ↔ n₁ < n₂ := by
  have h := lex_padList w n₁ n₂ [] [] h₁ h₂
  rw [List.append_nil, List.append_nil] at h
  rw [h, lex_nil_iff]
  tauto

/-- Lexicographic comparison of two canonical timestamps is exactly the
field-lexicographic comparison of their clock readings. -/
theorem fmt_lt_iff_clockLex (a b : ClockTime) (va : validClock a)
    (vb : validClock b) :
    (create24HTimestamp a < create24HTimestamp b) ↔ clockLex a b := by
  obtain ⟨hya1, hya2, hma1, hma2, hda1, hda2, hha, hmia, hsa⟩ := va
  obtain ⟨hyb1, hyb2, hmb1, hmb2, hdb1, hdb2, hhb, hmib, hsb⟩ := vb
  have hdma : a.day ≤ 31 := by
    have : daysInMonth (isLeap a.year) a.month ≤ 31 := by
      unfold daysInMonth
      split
      · split <;> omega
      · split <;> omega
    omega
  have hdmb : b.day ≤ 31 := by
    have : daysInMonth (isLeap b.year) b.month ≤ 31 := by
      unfold daysInMonth
      split
      · split <;> omega
      · split <;> omega
    omega
  rw [str_lt_iff_lex]
  unfold create24HTimestamp
  rw [fmtCanon_data a.year a.month a.day a.hours a.minutes a.seconds hya1 hya2
      (by omega) (by omega) (by omega) (by omega) (by omega),
    fmtCanon_data b.year b.month b.day b.hours b.minutes b.seconds hyb1 hyb2
      (by omega) (by omega) (by omega) (by omega) (by omega),
    lex_padList 4 a.year b.year _ _ (by norm_num; omega) (by norm_num; omega),
    lex_cons_same,
    lex_padList 2 a.month b.month _ _ (by norm_num; omega) (by norm_num; omega),
    lex_cons_same,
    lex_padList 2 a.day b.day _ _ (by norm_num; omega) (by norm_num; omega),
    lex_cons_same,
    lex_padList 2 a.hours b.hours _ _ (by norm_num; omega) (by norm_num; omega),
    lex_cons_same,
    lex_padList 2 a.minutes b.minutes _ _ (by norm_num; omega) (by norm_num; omega),
    lex_cons_same,
    lex_padList_final 2 a.seconds b.seconds (by norm_num; omega) (by norm_num; omega)]
  unfold clockLex
  tauto

/-- C5: every timestamp string produced by the codec — `create24HTimestamp`
and `createJSTTimestamp`, including both `catch` fallback branches —
matches the pattern `\d\d\d\d-\d\d-\d\d \d\d:\d\d:\d\d` (the
`validateTimestamp` regex), provided the clock fields are in their
JavaScript ranges; and for any two calendar-valid clock readings,
lexicographic comparison of their canonical timestamps agrees exactly
with the chronological order of the instants they represent (their
Gregorian epoch-second counts). -/
theorem timestamp_codec_canonical (jst utc a b : ClockTime)
    (hours minutes seconds : Nat)
    (hjy1 : 1000 ≤ jst.year) (hjy2 : jst.year ≤ 9999)
    (hjmo : jst.month < 100) (hjd : jst.day < 100) (hjh : jst.hours < 100)
    (hjmi : jst.minutes < 100) (hjs : jst.seconds < 100)
    (hh : hours < 100) (hmi : minutes < 100) (hs : seconds < 100)
    (huy : utc.year ≤ 9999) (humo : utc.month < 100) (hud : utc.day < 100)
    (huh : utc.hours < 100) (humi : utc.minutes < 100) (hus : utc.seconds < 100)
    (va : validClock a) (vb : validClock b) :
    validateTimestamp (create24HTimestamp jst) = true ∧
    validateTimestamp (create24HTimestampFallback jst) = true ∧
    validateTimestamp (createJSTTimestamp jst hours minutes seconds) = true ∧
    validateTimestamp (createJSTTimestampFallback utc) = true ∧
    (create24HTimestamp a < create24HTimestamp b ↔
      epochSeconds a < epochSeconds b) := by
  refine ⟨?_, ?_, ?_, ?_, ?_⟩
  · exact validateTimestamp_fmtCanon _ _ _ _ _ _ hjy1 hjy2 hjmo hjd hjh hjmi hjs
  · exact validateTimestamp_fmtCanon _ _ _ _ _ _ hjy1 hjy2 hjmo hjd hjh hjmi hjs
  · exact validateTimestamp_fmtCanon _ _ _ _ _ _ hjy1 hjy2 hjmo hjd hh hmi hs
  · exact validateTimestamp_fallback utc huy humo hud huh humi hus
  · rw [fmt_lt_iff_clockLex a b va vb]
    exact epochSeconds_lt_iff a b va vb

theorem timestamp_codec_canonical_witness :
    validateTimestamp (create24HTimestamp sampleClock) = true ∧
    validateTimestamp (create24HTimestampFallback sampleClock) = true ∧
    validateTimestamp (createJSTTimestamp sampleClock 22 0 0) = true ∧
    validateTimestamp (createJSTTimestampFallback sampleClock) = true ∧
    (create24HTimestamp sampleClock <
        create24HTimestamp { sampleClock with hours := 23 } ↔
      epochSeconds sampleClock <
        epochSeconds { sampleClock with hours := 23 }) :=
  timestamp_codec_canonical sampleClock sampleClock sampleClock
    { sampleClock with hours := 23 } 22 0 0
    (by decide) (by decide) (by decide) (by decide) (by decide) (by decide)
    (by decide) (by decide) (by decide) (by decide) (by decide) (by decide)
    (by decide) (by decide) (by decide) (by decide) (by decide) (by decide)

end ELife
